import Mathlib

/-!
Verification of the go-proxyproto library (Proxy Protocol v1/v2 parser and
writer plus a transparent connection wrapper).

The Go sources are shallowly embedded: wire bytes are `List Nat` (each entry a
byte value), `net.IP` values are `List Nat` (the empty list standing for Go's
nil slice), fallible operations return `Except Err`, and the buffered reader
(`bufio.Reader`) is a record of the unread byte stream together with its
internal buffer capacity.  All definitions are executable.
-/

namespace ProxyProto

/-! ## Protocol constants (protocol.go) -/

/-- The five signature bytes of a version 1 header: the ASCII text PROXY. -/
def SIGV1 : List Nat := [0x50, 0x52, 0x4F, 0x58, 0x59]

/-- The twelve signature bytes of a version 2 header. -/
def SIGV2 : List Nat := [0x0D, 0x0A, 0x0D, 0x0A, 0x00, 0x0D, 0x0A, 0x51, 0x55, 0x49, 0x54, 0x0A]

/-- The LOCAL command byte (protocol version 2, command 0). -/
def LOCAL : Nat := 0x20

/-- The PROXY command byte (protocol version 2, command 1). -/
def PROXY : Nat := 0x21

/-- Address family and transport protocol byte: unspecified. -/
def UNSPEC : Nat := 0x00

/-- Address family and transport protocol byte: TCP over IPv4. -/
def TCPv4 : Nat := 0x11

/-- Address family and transport protocol byte: UDP over IPv4. -/
def UDPv4 : Nat := 0x12

/-- Address family and transport protocol byte: TCP over IPv6. -/
def TCPv6 : Nat := 0x21

/-- Address family and transport protocol byte: UDP over IPv6. -/
def UDPv6 : Nat := 0x22

/-- The CRLF line terminator of a version 1 header. -/
def CRLF : List Nat := [0x0D, 0x0A]

/-- The single-space token separator of a version 1 header (v1.go `v1Sep`). -/
def v1Sep : Nat := 0x20

/-- Error values of the package (the `Err*` variables of protocol.go), plus the
two error kinds that `strconv.Atoi` can produce and which `parseV1Port`
propagates unchanged. -/
inductive Err where
  | cantReadProtocolVersionAndCommand
  | cantReadAddressFamilyAndProtocol
  | cantReadLength
  | noProxyProtocol
  | unknownProxyProtocolVersion
  | unsupportedProtocolVersionAndCommand
  | unsupportedAddressFamilyAndProtocol
  | invalidLength
  | invalidAddress
  | invalidPortNumber
  | atoiSyntax
  | atoiRange
deriving DecidableEq, Repr

/-- `isSupportedCommand` of protocol.go. -/
def isSupportedCommand (command : Nat) : Bool :=
  command == LOCAL || command == PROXY

/-- `ProtocolVersionAndCommand.IsLocal` of protocol.go. -/
def pvcIsLocal (pvc : Nat) : Bool :=
  pvc &&& 0xF0 == 0x20 && pvc &&& 0x0F == 0x00

/-- `ProtocolVersionAndCommand.IsProxy` of protocol.go. -/
def pvcIsProxy (pvc : Nat) : Bool :=
  pvc &&& 0xF0 == 0x20 && pvc &&& 0x0F == 0x01

/-- `isSupportedTransportProtocol` of protocol.go. -/
def isSupportedTransportProtocol (proto : Nat) : Bool :=
  proto == TCPv4 || proto == UDPv4 || proto == TCPv6 || proto == UDPv6

/-- `AddressFamilyAndProtocol.IsIPv4` of protocol.go. -/
def apIsIPv4 (ap : Nat) : Bool := ap &&& 0xF0 == 0x10

/-- `AddressFamilyAndProtocol.IsIPv6` of protocol.go. -/
def apIsIPv6 (ap : Nat) : Bool := ap &&& 0xF0 == 0x20

/-- `AddressFamilyAndProtocol.IsStream` of protocol.go. -/
def apIsStream (ap : Nat) : Bool := ap &&& 0x0F == 0x01

/-- `AddressFamilyAndProtocol.IsDatagram` of protocol.go. -/
def apIsDatagram (ap : Nat) : Bool := ap &&& 0x0F == 0x02

/-- Minimal address block length for IPv4 (v2.go `v4AddrLen`). -/
def v4AddrLen : Nat := 12

/-- Minimal address block length for IPv6 (v2.go `v6AddrLen`). -/
def v6AddrLen : Nat := 36

/-- `validateLeastAddressLen` of protocol.go. -/
def validateLeastAddressLen (ap : Nat) (len : Nat) : Bool :=
  if apIsIPv4 ap then decide (v4AddrLen ≤ len)
  else if apIsIPv6 ap then decide (v6AddrLen ≤ len)
  else false

/-! ## The Header record (protocol.go) -/

/-- The `Header` struct.  Go's `net.IP` slices become `List Nat`, with `[]`
standing for a nil slice; ports and single-byte fields are `Nat`. -/
structure Header where
  Version : Nat := 0
  SrcAddr : List Nat := []
  DstAddr : List Nat := []
  SrcPort : Nat := 0
  DstPort : Nat := 0
  Command : Nat := 0
  TransportProtocol : Nat := 0
deriving DecidableEq, Repr

/-! ## The buffered reader (bufio.Reader)

`data` is the byte stream still unread; `bufSize` is the capacity of the
internal buffer (4096 for `bufio.NewReader`).  `Peek n` succeeds exactly when
`n` does not exceed the buffer capacity (otherwise `bufio.ErrBufferFull`) and
`n` bytes are available before EOF. -/

structure Reader where
  data : List Nat
  bufSize : Nat
deriving DecidableEq, Repr

/-- A fresh `bufio.NewReader` (default buffer size 4096) over a byte stream. -/
def mkReader (data : List Nat) : Reader := ⟨data, 4096⟩

/-- `bufio.Reader.Peek`: returns `n` bytes without consuming them, or fails. -/
def Reader.peek (r : Reader) (n : Nat) : Option (List Nat) :=
  if n ≤ r.bufSize then
    if n ≤ r.data.length then some (r.data.take n) else none
  else none

/-- `bufio.Reader.Discard n`: drops up to `n` bytes, returning how many bytes
were dropped (fewer than `n` only at EOF). -/
def Reader.discard (r : Reader) (n : Nat) : Nat × Reader :=
  (min n r.data.length, ⟨r.data.drop n, r.bufSize⟩)

/-- `bufio.Reader.ReadByte`. -/
def Reader.readByte (r : Reader) : Option (Nat × Reader) :=
  match r.data with
  | [] => none
  | b :: rest => some (b, ⟨rest, r.bufSize⟩)

/-- Reading exactly `n` bytes via `binary.Read` over a length-`n`
`io.LimitReader`: succeeds only when `n` bytes are available; on failure the
available bytes have still been consumed. -/
def Reader.readN (r : Reader) (n : Nat) : Option (List Nat) × Reader :=
  if n ≤ r.data.length then (some (r.data.take n), ⟨r.data.drop n, r.bufSize⟩)
  else (none, ⟨[], r.bufSize⟩)

/-- `bufio.Reader.ReadString '\n'`: everything up to and including the first
line feed (all remaining bytes when the stream ends first, which is the case
where Go additionally reports an error that `parseVersion1` ignores). -/
def Reader.readStringLF (r : Reader) : List Nat × Reader :=
  match r.data.findIdx? (fun b => b == 0x0A) with
  | some i => (r.data.take (i + 1), ⟨r.data.drop (i + 1), r.bufSize⟩)
  | none => (r.data, ⟨[], r.bufSize⟩)

/-! ## Big-endian 16-bit integers (encoding/binary) -/

/-- `binary.BigEndian.PutUint16`. -/
def be16 (n : Nat) : List Nat := [n / 256 % 256, n % 256]

/-- `binary.BigEndian.Uint16` of two bytes. -/
def beVal (hi lo : Nat) : Nat := hi * 256 + lo

/-! ## Version 2 parser (v2.go `parseVersion2`) -/

/-- `parseVersion2` of v2.go, operating on a reader whose first 12 bytes are
the already-matched v2 signature.  Returns the header or the error, together
with the final reader state. -/
def parseVersion2 (br : Reader) : Except Err Header × Reader :=
  -- Skip first 12 bytes (signature)
  let (n, br) := br.discard SIGV2.length
  if n ≠ SIGV2.length then (.error .cantReadProtocolVersionAndCommand, br)
  else
    -- Read the 13th byte, protocol version and command
    match br.readByte with
    | none => (.error .cantReadProtocolVersionAndCommand, br)
    | some (b13, br) =>
      if ¬ isSupportedCommand b13 then (.error .unsupportedProtocolVersionAndCommand, br)
      else if pvcIsLocal b13 then
        -- If command is LOCAL, header ends here
        (.ok { Version := 2, Command := b13 }, br)
      else
        -- Read the 14th byte, address family and protocol
        match br.readByte with
        | none => (.error .cantReadAddressFamilyAndProtocol, br)
        | some (b14, br) =>
          if ¬ isSupportedTransportProtocol b14 then
            (.error .unsupportedAddressFamilyAndProtocol, br)
          else
            -- Read the two length bytes, big endian
            match br.readN 2 with
            | (none, br) => (.error .cantReadLength, br)
            | (some lenBytes, br) =>
              match lenBytes with
              | [hi, lo] =>
                let len := beVal hi lo
                if ¬ validateLeastAddressLen b14 len then (.error .invalidLength, br)
                else if (br.peek len).isNone then (.error .invalidLength, br)
                else
                  -- Read addresses and ports, then drain the remaining padding
                  let blockLen := if apIsIPv4 b14 then 12 else 36
                  match br.readN blockLen with
                  | (none, br) => (.error .invalidAddress, br)
                  | (some block, br) =>
                    let hdr : Header :=
                      if apIsIPv4 b14 then
                        { Version := 2, Command := b13, TransportProtocol := b14
                          SrcAddr := block.take 4
                          DstAddr := (block.drop 4).take 4
                          SrcPort := beVal ((block.drop 8).headD 0) ((block.drop 9).headD 0)
                          DstPort := beVal ((block.drop 10).headD 0) ((block.drop 11).headD 0) }
                      else
                        { Version := 2, Command := b13, TransportProtocol := b14
                          SrcAddr := block.take 16
                          DstAddr := (block.drop 16).take 16
                          SrcPort := beVal ((block.drop 32).headD 0) ((block.drop 33).headD 0)
                          DstPort := beVal ((block.drop 34).headD 0) ((block.drop 35).headD 0) }
                    let (_, br) := br.discard (len - blockLen)
                    (.ok hdr, br)
              | _ => (.error .cantReadLength, br)

/-! ## net.IP helpers (net package, modelled from the Go standard library) -/

/-- `net.IP.To4`: the 4-byte form of an IPv4 address, `[]` (nil) otherwise.
A 16-byte address is IPv4 exactly when its first ten bytes are zero and
bytes 10 and 11 are 0xFF (`isZeros(p[0:10]) && p[10] == 0xff && p[11] == 0xff`),
written here as one pattern. -/
def to4 (ip : List Nat) : List Nat :=
  if ip.length = 4 then ip
  else
    match ip with
    | [0, 0, 0, 0, 0, 0, 0, 0, 0, 0, 0xFF, 0xFF, a, b, c, d] => [a, b, c, d]
    | _ => []

/-- `net.IPv4` / `To16` of a 4-byte address: the IPv4-in-IPv6 mapped form. -/
def v4InV6 (a b c d : Nat) : List Nat :=
  [0, 0, 0, 0, 0, 0, 0, 0, 0, 0, 0xFF, 0xFF, a, b, c, d]

/-- `net.IP.To16`: the 16-byte form, `[]` (nil) when the length is invalid. -/
def to16 (ip : List Nat) : List Nat :=
  match ip with
  | [a, b, c, d] => v4InV6 a b c d
  | _ => if ip.length = 16 then ip else []

/-- `net.IP.Equal`: byte equality up to the IPv4-in-IPv6 mapping. -/
def ipEqual (x y : List Nat) : Bool :=
  if x.length = y.length then x == y
  else if x.length = 4 ∧ y.length = 16 then to4 y == x
  else if x.length = 16 ∧ y.length = 4 then to4 x == y
  else false

/-! ## Decimal and hexadecimal text (strconv / net package internals) -/

/-- Is the byte an ASCII decimal digit. -/
def isDigit (c : Nat) : Bool := decide (0x30 ≤ c ∧ c ≤ 0x39)

/-- The value of an ASCII hex digit, `none` for any other byte (net's `xtoi`). -/
def hexDigitVal (c : Nat) : Option Nat :=
  if 0x30 ≤ c ∧ c ≤ 0x39 then some (c - 0x30)
  else if 0x61 ≤ c ∧ c ≤ 0x66 then some (c - 0x61 + 10)
  else if 0x41 ≤ c ∧ c ≤ 0x46 then some (c - 0x41 + 10)
  else none

/-- The ASCII character of a hex digit value, lowercase (net's `hexDigit`). -/
def hexDigitChar (d : Nat) : Nat := if d < 10 then 0x30 + d else 0x57 + d

/-- Decimal rendering of a natural number (Go's `uitoa`, also
`strconv.Itoa` on the non-negative port values the writer renders). -/
def uitoa (n : Nat) : List Nat :=
  if h : n < 10 then [0x30 + n] else uitoa (n / 10) ++ [0x30 + n % 10]
  decreasing_by exact Nat.div_lt_self (by omega) (by omega)

/-- Hexadecimal rendering without leading zeros (net's `appendHex`). -/
def hexChars (n : Nat) : List Nat :=
  if _h : n < 16 then [hexDigitChar n] else hexChars (n / 16) ++ [hexDigitChar (n % 16)]
  decreasing_by exact Nat.div_lt_self (by omega) (by omega)

/-- Accumulating loop of net's `dtoi`: value so far, characters consumed. -/
def dtoiAux : List Nat → Nat → Nat → Nat × Nat × Bool
  | [], n, i => if i = 0 then (0, 0, false) else (n, i, true)
  | c :: rest, n, i =>
    if isDigit c then
      let n' := n * 10 + (c - 0x30)
      if 0xFFFFFF ≤ n' then (0xFFFFFF, i, false)
      else dtoiAux rest n' (i + 1)
    else if i = 0 then (0, 0, false) else (n, i, true)

/-- net's `dtoi`: the decimal number at the start of the string, the number of
characters consumed, and whether a number was read at all (with an overflow
cutoff at 0xFFFFFF). -/
def dtoi (s : List Nat) : Nat × Nat × Bool := dtoiAux s 0 0

/-- Accumulating loop of net's `xtoi`. -/
def xtoiAux : List Nat → Nat → Nat → Nat × Nat × Bool
  | [], n, i => if i = 0 then (0, 0, false) else (n, i, true)
  | c :: rest, n, i =>
    match hexDigitVal c with
    | some d =>
      let n' := n * 16 + d
      if 0xFFFFFF ≤ n' then (0, i, false)
      else xtoiAux rest n' (i + 1)
    | none => if i = 0 then (0, 0, false) else (n, i, true)

/-- net's `xtoi`: the hex number at the start of the string, characters
consumed, success flag. -/
def xtoi (s : List Nat) : Nat × Nat × Bool := xtoiAux s 0 0

/-- The value of a string of decimal digit characters. -/
def decValAux : List Nat → Nat → Nat
  | [], n => n
  | c :: rest, n => decValAux rest (n * 10 + (c - 0x30))

/-- The value of a string of decimal digit characters. -/
def decVal (s : List Nat) : Nat := decValAux s 0

/-- Model of `strconv.Atoi`, sign handling: the digit characters after the
optional leading `+` or `-`. -/
def atoiDigits (s : List Nat) : List Nat :=
  if s.head? = some 0x2B ∨ s.head? = some 0x2D then s.tail else s

/-- Model of `strconv.Atoi` (`ParseInt(s, 10, 0)` with 64-bit int), main
case split: empty or non-digit remainder is a syntax error; values outside
the int64 range are a range error. -/
def atoi (s : List Nat) : Except Err Int :=
  if atoiDigits s = [] ∨ ¬ (atoiDigits s).all isDigit then .error .atoiSyntax
  else if s.head? = some 0x2D then
    if 2 ^ 63 < decVal (atoiDigits s) then .error .atoiRange
    else .ok (-(decVal (atoiDigits s) : Int))
  else
    if 2 ^ 63 - 1 < decVal (atoiDigits s) then .error .atoiRange
    else .ok ((decVal (atoiDigits s) : Int))

/-! ## net.ParseIP (modelled from the Go standard library's net/ip.go) -/

/-- The separator step of net's `parseIPv4` field loop: every field after the
first must be preceded by a dot, which is consumed. -/
def stripDot (acc s : List Nat) : Option (List Nat) :=
  if acc = [] then some s
  else
    match s with
    | 0x2E :: rest => some rest
    | _ => none

/-- Field loop of net's `parseIPv4`: `count` fields remain; every field after
the first is preceded by a dot; each field is a decimal number at most 255;
the string must be fully consumed. -/
def parseIPv4Aux : Nat → List Nat → List Nat → Option (List Nat)
  | 0, s, acc => if s = [] then some acc else none
  | k + 1, s, acc =>
    if s = [] then none
    else
      match stripDot acc s with
      | none => none
      | some s1 =>
        match dtoi s1 with
        | (n, c, ok) =>
          if ok = false ∨ 0xFF < n then none
          else parseIPv4Aux k (s1.drop c) (acc ++ [n])

/-- net's `parseIPv4`: a dotted quad, returned in the 16-byte mapped form that
`net.IPv4` produces; `[]` (nil) on failure. -/
def parseIPv4 (s : List Nat) : List Nat :=
  match parseIPv4Aux 4 s [] with
  | some [a, b, c, d] => v4InV6 a b c d
  | _ => []

/-- Completion step of net's `parseIPv6`, after its main loop: the string must
be exhausted, and a short address is completed by expanding the ellipsis
(which must then be present) with zero bytes; a full 16-byte address must not
also carry an ellipsis. -/
def p6exit (s : List Nat) (acc : List Nat) (ell : Option Nat) : Option (List Nat) :=
  if s ≠ [] then none
  else if acc.length < 16 then
    match ell with
    | none => none
    | some e => some (acc.take e ++ List.replicate (16 - acc.length) 0 ++ acc.drop e)
  else
    match ell with
    | some _ => none
    | none => some acc

/-- Main loop of net's `parseIPv6`: reads hex groups separated by colons,
records the position of a `::` ellipsis, and accepts a trailing dotted quad in
the last four bytes.  `acc` holds the bytes produced so far. -/
def p6loop (s : List Nat) (acc : List Nat) (ell : Option Nat) : Option (List Nat) :=
  if 16 ≤ acc.length then p6exit s acc ell
  else
    let (n, c, ok) := xtoi s
    if ok = false ∨ 0xFFFF < n then none
    else if (s.drop c).head? = some 0x2E then
      -- trailing IPv4 in the last four bytes
      if ell = none ∧ acc.length ≠ 12 then none
      else if 16 < acc.length + 4 then none
      else
        match parseIPv4 s with
        | [] => none
        | ip4 => p6exit [] (acc ++ ip4.drop 12) ell
    else
      let acc' := acc ++ [n / 256, n % 256]
      let s' := s.drop c
      if s' = [] then p6exit [] acc' ell
      else if s'.head? ≠ some 0x3A ∨ s'.length = 1 then none
      else
        let s'' := s'.tail
        if s''.head? = some 0x3A then
          if ell.isSome then none
          else
            let s3 := s''.tail
            if s3 = [] then p6exit [] acc' (some acc'.length)
            else p6loop s3 acc' (some acc'.length)
        else p6loop s'' acc' ell
  termination_by 16 - acc.length
  decreasing_by
    all_goals simp only [List.length_append, List.length_cons, List.length_nil]
    all_goals omega

/-- net's `parseIPv6` (zones are not modelled; a `%` makes the parse fail as
in current Go): `none` for a malformed address. -/
def parseIPv6 (s : List Nat) : Option (List Nat) :=
  if 2 ≤ s.length ∧ s.head? = some 0x3A ∧ (s.drop 1).head? = some 0x3A then
    let s' := s.drop 2
    if s' = [] then some (List.replicate 16 0)
    else p6loop s' [] (some 0)
  else p6loop s [] none

/-- net's `ParseIP`: dispatch on the first dot or colon; `[]` (nil) when the
string is neither form. -/
def parseIP (s : List Nat) : List Nat :=
  match s.find? (fun c => c == 0x2E || c == 0x3A) with
  | some 0x2E => parseIPv4 s
  | some 0x3A =>
    match parseIPv6 s with
    | some ip => ip
    | none => []
  | _ => []

/-! ## net.IP.String (modelled from the Go standard library) -/

/-- 16-bit groups of a 16-byte IPv6 address (consecutive byte pairs). -/
def toGroups : List Nat → List Nat
  | b0 :: b1 :: t => (b0 * 256 + b1) :: toGroups t
  | _ => []

/-- The byte sequence of a list of 16-bit groups. -/
def groupBytes : List Nat → List Nat
  | [] => []
  | g :: t => g / 256 :: g % 256 :: groupBytes t

/-- The number of leading zero groups. -/
def leadZeroGroups : List Nat → Nat
  | 0 :: t => leadZeroGroups t + 1
  | _ => 0

/-- The length of the best zero run found so far (`e1 - e0`; 0 when none,
matching Go's `-1 - -1`). -/
def bestLen : Option (Nat × Nat) → Nat
  | none => 0
  | some (a, b) => b - a

/-- The run finder of `net.IP.String`: scans for the leftmost longest run of
zero groups, returning half-open group indices.  The run at `i` ends at
`j = i + leadZeroGroups (gs.drop i)`; it is adopted when `j > i` and
`j - i > e1 - e0`. -/
def zeroRunLoop (gs : List Nat) (i : Nat) (best : Option (Nat × Nat)) : Option (Nat × Nat) :=
  if h : i < gs.length then
    if 0 < leadZeroGroups (gs.drop i) ∧ bestLen best < leadZeroGroups (gs.drop i) then
      zeroRunLoop gs (i + leadZeroGroups (gs.drop i) + 1)
        (some (i, i + leadZeroGroups (gs.drop i)))
    else zeroRunLoop gs (i + 1) best
  else best
  termination_by gs.length - i
  decreasing_by all_goals omega

/-- The zero run chosen by `net.IP.String`; runs of a single group are not
compressed (RFC 5952). -/
def zeroRun (gs : List Nat) : Option (Nat × Nat) :=
  match zeroRunLoop gs 0 none with
  | some (a, b) => if b - a ≤ 1 then none else some (a, b)
  | none => none

/-- Hex groups joined by colons (the formatter loop appends a colon before
every group but the first). -/
def hexJoin : List Nat → List Nat
  | [] => []
  | [g] => hexChars g
  | g :: rest => hexChars g ++ 0x3A :: hexJoin rest

/-- The IPv6 text form produced by `net.IP.String` (on 16-bit groups): hex
groups joined by colons, with the chosen zero run compressed to `::`. -/
def fmtV6 (gs : List Nat) : List Nat :=
  match zeroRun gs with
  | none => hexJoin gs
  | some (a, b) => hexJoin (gs.take a) ++ [0x3A, 0x3A] ++ hexJoin (gs.drop b)

/-- Per-byte hex dump (net's `hexString`, for the malformed-length fallback). -/
def hexDump : List Nat → List Nat
  | [] => []
  | b :: t => hexDigitChar (b / 16 % 16) :: hexDigitChar (b % 16) :: hexDump t

/-- `net.IP.String`: `<nil>` for a nil IP, a dotted quad when `To4` applies,
the RFC 5952 form for a 16-byte address, and a `?`-prefixed hex dump for any
other length. -/
def ipString (ip : List Nat) : List Nat :=
  if ip = [] then [0x3C, 0x6E, 0x69, 0x6C, 0x3E]
  else
    match to4 ip with
    | [a, b, c, d] =>
      uitoa a ++ [0x2E] ++ uitoa b ++ [0x2E] ++ uitoa c ++ [0x2E] ++ uitoa d
    | _ =>
      if ip.length = 16 then fmtV6 (toGroups ip)
      else 0x3F :: hexDump ip

/-! ## Version 1 codec (v1.go) -/

/-- The TCP4 protocol token. -/
def TCP4tok : List Nat := [0x54, 0x43, 0x50, 0x34]

/-- The TCP6 protocol token. -/
def TCP6tok : List Nat := [0x54, 0x43, 0x50, 0x36]

/-- The UNKNOWN protocol token. -/
def UNKNOWNtok : List Nat := [0x55, 0x4E, 0x4B, 0x4E, 0x4F, 0x57, 0x4E]

/-- `parseV1Port` of v1.go: `strconv.Atoi`, then the `[0, 65535]` bound check;
an `Atoi` failure is propagated as-is. -/
def parseV1Port (portStr : List Nat) : Except Err Nat :=
  match atoi portStr with
  | .error e => .error e
  | .ok port =>
    if port < 0 ∨ 65535 < port then .error .invalidPortNumber
    else .ok port.toNat

/-- `parseV1IPAddress` of v1.go: `net.ParseIP` then the family check against
the declared transport protocol. -/
def parseV1IPAddress (proto : Nat) (addrStr : List Nat) : Except Err (List Nat) :=
  let addr := parseIP addrStr
  let v4 := to4 addr
  if proto = TCPv4 ∨ proto = UDPv4 then
    if v4 = [] then .error .invalidAddress else .ok addr
  else if proto = TCPv6 ∨ proto = UDPv6 then
    if v4 ≠ [] then .error .invalidAddress else .ok addr
  else .error .invalidAddress

/-- `parseVersion1` of v1.go: one CRLF-terminated line, split on single
spaces into at least six tokens. -/
def parseVersion1 (reader : Reader) : Except Err Header × Reader :=
  let lineR := reader.readStringLF
  let line := lineR.1
  let reader := lineR.2
  if ¬ CRLF.isSuffixOf line then (.error .cantReadProtocolVersionAndCommand, reader)
  else
    let tokens := (line.dropLast.dropLast).splitOn v1Sep
    if tokens.length < 6 then (.error .cantReadProtocolVersionAndCommand, reader)
    else
      match tokens with
      | _ :: t1 :: t2 :: t3 :: t4 :: t5 :: _ =>
        let transport := if t1 = TCP4tok then TCPv4 else if t1 = TCP6tok then TCPv6 else UNSPEC
        match parseV1IPAddress transport t2 with
        | .error e => (.error e, reader)
        | .ok srcA =>
          match parseV1IPAddress transport t3 with
          | .error e => (.error e, reader)
          | .ok dstA =>
            match parseV1Port t4 with
            | .error e => (.error e, reader)
            | .ok srcP =>
              match parseV1Port t5 with
              | .error e => (.error e, reader)
              | .ok dstP =>
                (.ok { Version := 1, TransportProtocol := transport,
                       SrcAddr := srcA, DstAddr := dstA,
                       SrcPort := srcP, DstPort := dstP }, reader)
      | _ => (.error .cantReadProtocolVersionAndCommand, reader)

/-- `writeVersion1` of v1.go: signature, protocol token, the two addresses as
text, the two ports as decimals, all space-separated, then CRLF. -/
def writeVersion1 (h : Header) : List Nat :=
  let proto :=
    if h.TransportProtocol = TCPv4 then TCP4tok
    else if h.TransportProtocol = TCPv6 then TCP6tok
    else UNKNOWNtok
  SIGV1 ++ [v1Sep] ++ proto ++ [v1Sep] ++ ipString h.SrcAddr ++ [v1Sep] ++
    ipString h.DstAddr ++ [v1Sep] ++ uitoa h.SrcPort ++ [v1Sep] ++ uitoa h.DstPort ++ CRLF

/-- The token-level tail of `parseVersion1`: the address and port parsing that
follows once the line has been split into tokens (stated separately so the
line-splitting lemma can name it). -/
def v1Assemble (tr : Nat) (t2 t3 t4 t5 : List Nat) : Except Err Header :=
  match parseV1IPAddress tr t2 with
  | .error e => .error e
  | .ok srcA =>
    match parseV1IPAddress tr t3 with
    | .error e => .error e
    | .ok dstA =>
      match parseV1Port t4 with
      | .error e => .error e
      | .ok srcP =>
        match parseV1Port t5 with
        | .error e => .error e
        | .ok dstP =>
          .ok { Version := 1, TransportProtocol := tr, SrcAddr := srcA, DstAddr := dstA,
                SrcPort := srcP, DstPort := dstP }

/-- `writeVersion2` of v2.go: the bytes a version 2 header is rendered to. -/
def writeVersion2 (h : Header) : List Nat :=
  if pvcIsLocal h.Command then SIGV2 ++ [h.Command]
  else
    SIGV2 ++ [h.Command] ++ [h.TransportProtocol] ++
    (if apIsIPv4 h.TransportProtocol then
      be16 v4AddrLen ++ to4 h.SrcAddr ++ to4 h.DstAddr
    else if apIsIPv6 h.TransportProtocol then
      be16 v6AddrLen ++ to16 h.SrcAddr ++ to16 h.DstAddr
    else []) ++
    be16 h.SrcPort ++ be16 h.DstPort

/-- `Header.WriteTo` of protocol.go: dispatch on the version field. -/
def writeTo (h : Header) : Except Err (List Nat) :=
  if h.Version = 1 then .ok (writeVersion1 h)
  else if h.Version = 2 then .ok (writeVersion2 h)
  else .error .unknownProxyProtocolVersion

/-- `Read` of protocol.go: peek one byte, then the five-byte v1 signature,
then the twelve-byte v2 signature; dispatch to the matching parser, with
`ErrNoProxyProtocol` (and an untouched reader) when neither matches. -/
def Read (br : Reader) : Except Err Header × Reader :=
  match br.peek 1 with
  | none => (.error .noProxyProtocol, br)
  | some b1 =>
    if ¬ b1 = SIGV1.take 1 ∧ ¬ b1 = SIGV2.take 1 then (.error .noProxyProtocol, br)
    else
      match br.peek 5 with
      | none => (.error .noProxyProtocol, br)
      | some v1Peek =>
        if v1Peek = SIGV1 then parseVersion1 br
        else
          match br.peek 12 with
          | none => (.error .noProxyProtocol, br)
          | some v2Sig =>
            if v2Sig = SIGV2 then parseVersion2 br
            else (.error .noProxyProtocol, br)

/-! ## The connection wrapper (conn.go: `Listener`, `Conn`)

A `net.Addr` value is either a TCP address, a UDP address, or an `IPAddr`
(the empty `&net.IPAddr{}` placeholder has a nil IP). -/

inductive Addr where
  | tcp (ip : List Nat) (port : Nat)
  | udp (ip : List Nat) (port : Nat)
  | ipAddr (ip : List Nat)
deriving DecidableEq, Repr

/-- `Header.addr` of protocol.go: project an IP and port to a `net.Addr` by
transport kind; an empty `net.IPAddr` marks the absence of a valid address. -/
def headerAddr (h : Header) (addr : List Nat) (port : Nat) : Addr :=
  if apIsStream h.TransportProtocol then .tcp addr port
  else if apIsDatagram h.TransportProtocol then .udp addr port
  else .ipAddr []

/-- `Header.RemoteAddr` of protocol.go. -/
def headerRemoteAddr (h : Header) : Addr := headerAddr h h.SrcAddr h.SrcPort

/-- `Header.LocalAddr` of protocol.go. -/
def headerLocalAddr (h : Header) : Addr := headerAddr h h.DstAddr h.DstPort

/-- `isInvalidHeaderAddr` of conn.go: a `net.IPAddr` with a nil IP. -/
def isInvalidHeaderAddr : Addr → Bool
  | .ipAddr [] => true
  | _ => false

/-- The raw accepted connection: the bytes its peer sends, its physical
addresses, and whether `Close` has been called. -/
structure NetConn where
  stream : List Nat
  localAddrPhys : Addr
  remoteAddrPhys : Addr
  closed : Bool := false
deriving DecidableEq, Repr

/-- The `Conn` struct of conn.go.  `header = none` models the nil `*Header`;
`onceDone` is the completion state of the `sync.Once` guard.  The header
timeout is not modelled (real time); theorems concern the zero-timeout
configuration in which `readHeader` never arms a deadline. -/
structure Conn where
  br : Reader
  conn : NetConn
  header : Option Header := none
  useConnAddr : Bool := false
  onceDone : Bool := false
deriving DecidableEq, Repr

/-- `NewConn` of conn.go: a fresh default `bufio.Reader` over the raw
connection. -/
def newConn (c : NetConn) : Conn := { br := mkReader c.stream, conn := c }

/-- `Listener.Accept` of conn.go: the optional `SourceChecker` may fail the
accept, or mark the wrapped connection as one that must keep the physical
addresses. -/
def listenerAccept (c : NetConn) (sourceCheck : Option (Addr → Except Unit Bool)) :
    Except Unit Conn :=
  match sourceCheck with
  | none => .ok (newConn c)
  | some f =>
    match f c.remoteAddrPhys with
    | .error e => .error e
    | .ok allowed =>
      if allowed then .ok (newConn c) else .ok { newConn c with useConnAddr := true }

/-- `Conn.readHeader` of conn.go with a zero timeout: run the codec `Read`;
`ErrNoProxyProtocol` is swallowed (the connection works as if no proxy
protocol were involved), every other error is returned.  Either way the
parsed header (nil on any error) is stored. -/
def connReadHeader (p : Conn) : Option Err × Conn :=
  let res := Read p.br
  match res.1 with
  | .ok h => (none, { p with br := res.2, header := some h })
  | .error e =>
    if e = .noProxyProtocol then (none, { p with br := res.2, header := none })
    else (some e, { p with br := res.2, header := none })

/-- `Conn.Close` of conn.go. -/
def connClose (p : Conn) : Conn := { p with conn := { p.conn with closed := true } }

/-- `Conn.readHeaderOnce` of conn.go: under the once guard, run `readHeader`;
on an error other than `io.EOF` (the codec never returns a bare `io.EOF`),
log it, close the connection and reset the buffered reader to a fresh one
over the raw connection (whose already-buffered bytes are gone; the fresh
buffer contents are not modelled further). -/
def connReadHeaderOnce (p : Conn) : Conn :=
  if p.onceDone then p
  else
    let r := connReadHeader p
    let p' := { r.2 with onceDone := true }
    match r.1 with
    | some _ => { connClose p' with br := mkReader [] }
    | none => p'

/-- `Conn.Read` of conn.go: the first call runs `readHeader` under the once
guard and returns its error, if any, without closing anything; afterwards
reads are served from the buffered reader. -/
def connRead (p : Conn) (n : Nat) : Except Err (List Nat) × Conn :=
  if p.onceDone then
    (.ok (p.br.data.take n), { p with br := ⟨p.br.data.drop n, p.br.bufSize⟩ })
  else
    let r := connReadHeader p
    let p' := { r.2 with onceDone := true }
    match r.1 with
    | some e => (.error e, p')
    | none =>
      (.ok (p'.br.data.take n), { p' with br := ⟨p'.br.data.drop n, p'.br.bufSize⟩ })

/-- `Conn.LocalAddr` of conn.go.  The code evaluates `p.header.LocalAddr()`
unconditionally; when the stored header is nil this dereferences a nil
pointer, modelled as the result `none` (a runtime panic). -/
def connLocalAddr (p : Conn) : Option Addr × Conn :=
  let p' := connReadHeaderOnce p
  match p'.header with
  | none => (none, p')
  | some h =>
    if isInvalidHeaderAddr (headerLocalAddr h) || p'.useConnAddr then
      (some p'.conn.localAddrPhys, p')
    else (some (headerLocalAddr h), p')

/-- `Conn.RemoteAddr` of conn.go, with the same nil-header panic model. -/
def connRemoteAddr (p : Conn) : Option Addr × Conn :=
  let p' := connReadHeaderOnce p
  match p'.header with
  | none => (none, p')
  | some h =>
    if isInvalidHeaderAddr (headerRemoteAddr h) || p'.useConnAddr then
      (some p'.conn.remoteAddrPhys, p')
    else (some (headerRemoteAddr h), p')

/-! ## Test fixtures used by concrete witnesses -/

/-- A plain client connection that sends `ping` with no proxy header. -/
def pingConn : NetConn :=
  { stream := [112, 105, 110, 103]
    localAddrPhys := .tcp [10, 0, 0, 1] 443
    remoteAddrPhys := .tcp [192, 168, 0, 7] 51000 }

/-- A client connection that sends the v2 signature followed by the
unsupported command byte 0x99 (the `TestConn_Invalid` fixture). -/
def invalidV2Conn : NetConn :=
  { stream := SIGV2 ++ [0x99]
    localAddrPhys := .tcp [10, 0, 0, 1] 443
    remoteAddrPhys := .tcp [192, 168, 0, 7] 51000 }

/-- A client connection that sends a valid v2 PROXY/TCPv4 header claiming
addresses 1.2.3.4:80 and 5.6.7.8:81 . -/
def v2ProxyConn : NetConn :=
  { stream := SIGV2 ++ [0x21, 0x11] ++ be16 12 ++ [1, 2, 3, 4, 5, 6, 7, 8, 0, 80, 0, 81]
    localAddrPhys := .tcp [10, 0, 0, 1] 443
    remoteAddrPhys := .tcp [192, 168, 0, 7] 51000 }

/-- The header carried by `v2ProxyConn`. -/
def v2ProxyConnHeader : Header :=
  { Version := 2, SrcAddr := [1, 2, 3, 4], DstAddr := [5, 6, 7, 8],
    SrcPort := 80, DstPort := 81, Command := 0x21, TransportProtocol := 0x11 }

/-- The value of a string of hex digit characters (accumulator form). -/
def hexValAux : List Nat → Nat → Nat
  | [], n => n
  | c :: rest, n => hexValAux rest (n * 16 + (hexDigitVal c).getD 0)

/-- Equality of two headers in version, command, transport protocol,
addresses (up to `net.IP.Equal`) and ports: the equality notion of the
round-trip claim. -/
def headerMatch (x y : Header) : Prop :=
  x.Version = y.Version ∧ x.Command = y.Command ∧
  x.TransportProtocol = y.TransportProtocol ∧
  ipEqual x.SrcAddr y.SrcAddr = true ∧ ipEqual x.DstAddr y.DstAddr = true ∧
  x.SrcPort = y.SrcPort ∧ x.DstPort = y.DstPort

/-! ## Helper lemmas -/

/-! ## Concrete headers used to instantiate the round-trip results -/

/-- The canonical v2 LOCAL header. -/
def c1LocalHdr : Header := { Version := 2, Command := LOCAL }

/-- A v2 PROXY/TCPv4 header. -/
def c1V2Hdr : Header :=
  { Version := 2, Command := PROXY, TransportProtocol := TCPv4,
    SrcAddr := [127, 0, 0, 1], DstAddr := [10, 0, 0, 1], SrcPort := 8080, DstPort := 80 }

/-- A v2 PROXY/UDPv6 header. -/
def c1V6Hdr : Header :=
  { Version := 2, Command := PROXY, TransportProtocol := UDPv6,
    SrcAddr := [0x20, 0x01, 0x0D, 0xB8, 0, 0, 0, 0, 0, 0, 0, 0, 0, 0, 0, 1],
    DstAddr := [0xFE, 0x80, 0, 0, 0, 0, 0, 0, 0, 0, 0, 0, 0, 0, 0, 2],
    SrcPort := 546, DstPort := 547 }

/-- A v1 TCPv4 header (with the zero command value Go's parser produces). -/
def c1V1Hdr : Header :=
  { Version := 1, TransportProtocol := TCPv4,
    SrcAddr := [127, 0, 0, 1], DstAddr := [10, 0, 0, 1], SrcPort := 8080, DstPort := 80 }

/-- A v1 TCPv6 header. -/
def c1V1V6Hdr : Header :=
  { Version := 1, TransportProtocol := TCPv6,
    SrcAddr := [0x20, 0x01, 0x0D, 0xB8, 0, 0, 0, 0, 0, 0, 0, 0, 0, 0, 0, 1],
    DstAddr := [0xFE, 0x80, 0, 0, 0, 0, 0, 0, 0, 0, 0, 0, 0, 0, 0, 2],
    SrcPort := 8080, DstPort := 80 }

/-- A v1 UDPv4 header: valid for the writer, lost on re-parse. -/
def c1UdpHdr : Header :=
  { Version := 1, TransportProtocol := UDPv4, SrcAddr := [127, 0, 0, 1],
    DstAddr := [10, 0, 0, 1], SrcPort := 8080, DstPort := 80 }

/-- A v1 TCPv4 header carrying the PROXY command byte: the command is lost
on re-parse. -/
def c1ProxyHdr : Header :=
  { Version := 1, Command := PROXY, TransportProtocol := TCPv4, SrcAddr := [127, 0, 0, 1],
    DstAddr := [10, 0, 0, 1], SrcPort := 8080, DstPort := 80 }

/-- The invariant the run finder maintains: any adopted run is nonempty and
consists of zero groups within bounds. -/
def goodRun (gs : List Nat) (best : Option (Nat × Nat)) : Prop :=
  ∀ a b, best = some (a, b) →
    a < b ∧ b ≤ gs.length ∧ (gs.drop a).take (b - a) = List.replicate (b - a) 0

/-- Recombining the two big-endian bytes of a 16-bit value. -/
theorem beVal_be16 (L : Nat) (h : L ≤ 65535) : beVal (L / 256 % 256) (L % 256) = L := by
  unfold beVal
  omega

/-- The four supported transport protocol bytes. -/
theorem supported_transport_cases (fam : Nat)
    (h : isSupportedTransportProtocol fam = true) :
    fam = TCPv4 ∨ fam = UDPv4 ∨ fam = TCPv6 ∨ fam = UDPv6 := by
  simp only [isSupportedTransportProtocol, Bool.or_eq_true, beq_iff_eq] at h
  tauto

/-- `Read` on any stream that matches neither signature fails with
`noProxyProtocol` and leaves the reader untouched. -/
theorem read_no_sig (br : Reader) (h1 : br.data.take 5 ≠ SIGV1)
    (h2 : br.data.take 12 ≠ SIGV2) :
    Read br = (.error .noProxyProtocol, br) := by
  unfold Read Reader.peek
  rcases hd : br.data with _ | ⟨b, rest⟩
  · simp [hd]
  · have htake5 : List.take 5 (b :: rest) = b :: List.take 4 rest := rfl
    have htake12 : List.take 12 (b :: rest) = b :: List.take 11 rest := rfl
    rw [hd, htake5] at h1
    rw [hd, htake12] at h2
    by_cases hb : 1 ≤ br.bufSize
    · simp only [hd, hb, if_true, List.length_cons, Nat.le_add_left, List.take_succ_cons,
        List.take_zero]
      by_cases hsig : ¬ [b] = SIGV1.take 1 ∧ ¬ [b] = SIGV2.take 1
      · simp [hsig]
      · simp only [hsig, if_false]
        by_cases h5 : 5 ≤ br.bufSize
        · simp only [h5, if_true]
          by_cases h5l : 5 ≤ rest.length + 1
          · simp only [h5l, if_true, h1, if_false]
            by_cases h12 : 12 ≤ br.bufSize
            · simp only [h12, if_true]
              by_cases h12l : 12 ≤ rest.length + 1
              · simp [h12l, h2]
              · simp [h12l]
            · simp [h12]
          · simp [h5l]
        · simp [h5]
    · simp [hb]

/-- C7: feeding `Read` any byte sequence that matches neither the 5-byte v1
signature nor the 12-byte v2 signature (including sequences too short for
either) yields `ErrNoProxyProtocol` and consumes nothing: the buffered
source still holds exactly the original bytes. -/
theorem c7_no_signature_consumes_nothing (input : List Nat)
    (h1 : input.take 5 ≠ SIGV1) (h2 : input.take 12 ≠ SIGV2) :
    Read (mkReader input) = (.error .noProxyProtocol, mkReader input) ∧
      (Read (mkReader input)).2.data = input := by
  refine ⟨read_no_sig (mkReader input) h1 h2, ?_⟩
  rw [read_no_sig (mkReader input) h1 h2]
  rfl

/-- C7 witness: the concrete 17-byte stream of the repository's own
`NO_PROTOCOL` test fixture. -/
theorem c7_no_signature_consumes_nothing_witness :
    ([84, 104, 101, 114, 101] : List Nat).take 5 ≠ SIGV1 ∧
      Read (mkReader [84, 104, 101, 114, 101]) =
        (.error .noProxyProtocol, mkReader [84, 104, 101, 114, 101]) :=
  ⟨by decide, (c7_no_signature_consumes_nothing [84, 104, 101, 114, 101]
      (by decide) (by decide)).1⟩

/-- C9: the 12-byte v2 signature followed by the LOCAL command byte (0x20)
parses to a Header with version 2, command LOCAL, transport protocol UNSPEC
and no address or port fields populated, leaving the reader just past the
command byte; and writing any version-2 header whose command is LOCAL emits
exactly the 13 bytes signature-plus-command — no family byte, no length, no
body. -/
theorem c9_v2_local_short_circuit :
    (∀ rest : List Nat, Read (mkReader (SIGV2 ++ 0x20 :: rest)) =
      (.ok { Version := 2, Command := LOCAL, TransportProtocol := UNSPEC,
             SrcAddr := [], DstAddr := [], SrcPort := 0, DstPort := 0 }, mkReader rest)) ∧
    (∀ h : Header, h.Command = LOCAL → writeVersion2 h = SIGV2 ++ [LOCAL]) := by
  constructor
  · intro rest
    show Read ⟨13 :: 10 :: 13 :: 10 :: 0 :: 13 :: 10 :: 81 :: 85 :: 73 :: 84 :: 10 :: 32 :: rest, 4096⟩ = _
    unfold Read Reader.peek parseVersion2
    simp [Reader.discard, Reader.readByte, SIGV1, SIGV2, isSupportedCommand, pvcIsLocal,
      LOCAL, PROXY, UNSPEC, mkReader]
    intro hcon
    exact absurd (by decide : (32 : Nat) &&& 15 = 0) (hcon (by decide))
  · intro h hcmd
    unfold writeVersion2
    rw [hcmd]
    simp only [pvcIsLocal, LOCAL]
    rw [if_pos (by decide)]

/-- C9 witness: the LOCAL round at the concrete empty tail, and the concrete
all-default LOCAL header. -/
theorem c9_v2_local_short_circuit_witness :
    Read (mkReader (SIGV2 ++ 0x20 :: [])) =
      (.ok { Version := 2, Command := LOCAL, TransportProtocol := UNSPEC,
             SrcAddr := [], DstAddr := [], SrcPort := 0, DstPort := 0 }, mkReader []) ∧
    writeVersion2 { Version := 2, Command := LOCAL } = SIGV2 ++ [LOCAL] :=
  ⟨c9_v2_local_short_circuit.1 [], c9_v2_local_short_circuit.2 { Version := 2, Command := LOCAL } rfl⟩

/-- A v2 PROXY header whose declared length exceeds the reader's buffer size
of 4096 is rejected with `invalidLength` at the availability `Peek`, whatever
follows the length field. -/
theorem read_v2_len_over_buffer (fam L : Nat) (rest : List Nat)
    (hfam : isSupportedTransportProtocol fam = true)
    (hL : 4096 < L) (hL2 : L ≤ 65535) :
    Read (mkReader (SIGV2 ++ PROXY :: fam :: (be16 L ++ rest))) =
      (.error .invalidLength, mkReader rest) := by
  have hLfacts : 12 ≤ L ∧ ¬ L ≤ 4096 ∧ ¬ L < 12 ∧ ¬ L < 36 := by omega
  rcases supported_transport_cases fam hfam with h | h | h | h <;> subst h <;>
    unfold Read Reader.peek parseVersion2 <;>
    simp [Reader.discard, Reader.readByte, Reader.readN, Reader.peek, SIGV1, SIGV2, be16,
      isSupportedCommand, pvcIsLocal, isSupportedTransportProtocol, LOCAL, PROXY, mkReader,
      beVal_be16 L hL2, validateLeastAddressLen, apIsIPv4, apIsIPv6,
      TCPv4, UDPv4, TCPv6, UDPv6, v4AddrLen, v6AddrLen,
      (show (33:Nat) &&& 240 = 32 from by decide), (show (33:Nat) &&& 15 = 1 from by decide),
      (show (17:Nat) &&& 240 = 16 from by decide), (show (18:Nat) &&& 240 = 16 from by decide),
      (show (34:Nat) &&& 240 = 32 from by decide),
      hLfacts.1, hLfacts.2.1, hLfacts.2.2.1, hLfacts.2.2.2]

/-- C10: with the default 4096-byte `bufio.Reader`, every v2 PROXY header
whose declared length exceeds 4096 is rejected with `ErrInvalidLength`, even
when all of the declared bytes are available from the source (the
availability check is one `Peek` of the full declared length, which cannot
exceed the buffer, rather than an incremental read). -/
theorem c10_length_over_buffer_rejected (fam L : Nat) (rest : List Nat)
    (hfam : isSupportedTransportProtocol fam = true)
    (hL : 4096 < L) (hL2 : L ≤ 65535) (_hav : L ≤ rest.length) :
    Read (mkReader (SIGV2 ++ PROXY :: fam :: (be16 L ++ rest))) =
      (.error .invalidLength, mkReader rest) :=
  read_v2_len_over_buffer fam L rest hfam hL hL2

/-- C10 witness: a declared length of 4097 with all 4097 bytes present is
still rejected. -/
theorem c10_length_over_buffer_rejected_witness :
    isSupportedTransportProtocol TCPv4 = true ∧ 4096 < 4097 ∧
    Read (mkReader (SIGV2 ++ PROXY :: TCPv4 :: (be16 4097 ++ List.replicate 4097 0))) =
      (.error .invalidLength, mkReader (List.replicate 4097 0)) :=
  ⟨by decide, by decide,
    c10_length_over_buffer_rejected TCPv4 4097 (List.replicate 4097 0)
      (by decide) (by decide) (by decide)
      (by rw [List.length_replicate])⟩

/-- C8 counterexample: a well-formed v2 PROXY/TCPv4 header declaring length
4097 (minimum 12 plus 4085 padding bytes), with every declared byte present,
is rejected with `invalidLength` instead of parsing like the unpadded header,
because the declared length exceeds the 4096-byte reader buffer. -/
theorem c8_padding_counterexample :
    Read (mkReader (SIGV2 ++ PROXY :: TCPv4 :: (be16 4097 ++
        ([127, 0, 0, 1, 10, 0, 0, 1, 0, 80, 1, 187] ++ List.replicate 4085 0)))) =
      (.error .invalidLength,
        mkReader ([127, 0, 0, 1, 10, 0, 0, 1, 0, 80, 1, 187] ++ List.replicate 4085 0)) :=
  read_v2_len_over_buffer TCPv4 4097
    ([127, 0, 0, 1, 10, 0, 0, 1, 0, 80, 1, 187] ++ List.replicate 4085 0)
    (by decide) (by decide) (by decide)

/-- C8 amended: a well-formed v2 PROXY header whose declared length exceeds
the per-family minimum (12 for IPv4, 36 for IPv6) but is at most the 4096-byte
reader buffer, followed by arbitrary trailer bytes, parses to the same Header
as the unpadded header (padding is drained uninterpreted), and the stream is
left positioned exactly at the declared end: a subsequent read yields exactly
the trailer bytes. -/
theorem c8_padding_drained (fam : Nat) (block pad trailer : List Nat)
    (hfam : isSupportedTransportProtocol fam = true)
    (hblock : block.length = if apIsIPv4 fam then 12 else 36)
    (hpad : 0 < pad.length)
    (hL : block.length + pad.length ≤ 4096) :
    Read (mkReader (SIGV2 ++ PROXY :: fam ::
        (be16 (block.length + pad.length) ++ (block ++ (pad ++ trailer))))) =
      ((Read (mkReader (SIGV2 ++ PROXY :: fam :: (be16 block.length ++ block)))).1,
        mkReader trailer) := by
  rcases supported_transport_cases fam hfam with h | h | h | h <;> subst h
  · have hblock : block.length = 12 := hblock.trans (by decide)
    have hL2 : block.length + pad.length ≤ 65535 := by omega
    have htake : List.take 12 (block ++ (pad ++ trailer)) = block := List.take_left' hblock
    have hdropb : List.drop 12 (block ++ (pad ++ trailer)) = pad ++ trailer := List.drop_left' hblock
    have htakeb : List.take 12 block = block := by rw [← hblock, List.take_length]
    have hdropb2 : List.drop 12 block = [] := by rw [← hblock, List.drop_length]
    have hbv : beVal ((12 + pad.length) / 256 % 256) ((12 + pad.length) % 256) = 12 + pad.length :=
      beVal_be16 _ (by omega)
    have hbv0 : beVal 0 12 = 12 := by decide
    unfold Read Reader.peek parseVersion2
    simp [Reader.discard, Reader.readByte, Reader.readN, Reader.peek, SIGV1, SIGV2, be16,
      isSupportedCommand, pvcIsLocal, isSupportedTransportProtocol, LOCAL, PROXY, mkReader,
      hbv, hbv0, validateLeastAddressLen, apIsIPv4, apIsIPv6,
      TCPv4, UDPv4, TCPv6, UDPv6, v4AddrLen, v6AddrLen,
      (show (33:Nat) &&& 240 = 32 from by decide), (show (33:Nat) &&& 15 = 1 from by decide),
      (show (17:Nat) &&& 240 = 16 from by decide),
      htake, hdropb, htakeb, hdropb2, hblock,
      (show ¬ (12:Nat) + pad.length < 12 from by omega),
      (show ¬((12:Nat) + pad.length ≤ 4096 → 12 + (pad.length + trailer.length) < 12 + pad.length) from by omega),
      (show ¬((12:Nat) ≤ 4096 → 12 < 12) from by omega),
      (show (12:Nat) + pad.length - 12 = pad.length from by omega),
      List.drop_left]
    try omega
  · have hblock : block.length = 12 := hblock.trans (by decide)
    have hL2 : block.length + pad.length ≤ 65535 := by omega
    have htake : List.take 12 (block ++ (pad ++ trailer)) = block := List.take_left' hblock
    have hdropb : List.drop 12 (block ++ (pad ++ trailer)) = pad ++ trailer := List.drop_left' hblock
    have htakeb : List.take 12 block = block := by rw [← hblock, List.take_length]
    have hdropb2 : List.drop 12 block = [] := by rw [← hblock, List.drop_length]
    have hbv : beVal ((12 + pad.length) / 256 % 256) ((12 + pad.length) % 256) = 12 + pad.length :=
      beVal_be16 _ (by omega)
    have hbv0 : beVal 0 12 = 12 := by decide
    unfold Read Reader.peek parseVersion2
    simp [Reader.discard, Reader.readByte, Reader.readN, Reader.peek, SIGV1, SIGV2, be16,
      isSupportedCommand, pvcIsLocal, isSupportedTransportProtocol, LOCAL, PROXY, mkReader,
      hbv, hbv0, validateLeastAddressLen, apIsIPv4, apIsIPv6,
      TCPv4, UDPv4, TCPv6, UDPv6, v4AddrLen, v6AddrLen,
      (show (33:Nat) &&& 240 = 32 from by decide), (show (33:Nat) &&& 15 = 1 from by decide),
      (show (18:Nat) &&& 240 = 16 from by decide),
      htake, hdropb, htakeb, hdropb2, hblock,
      (show ¬ (12:Nat) + pad.length < 12 from by omega),
      (show ¬((12:Nat) + pad.length ≤ 4096 → 12 + (pad.length + trailer.length) < 12 + pad.length) from by omega),
      (show ¬((12:Nat) ≤ 4096 → 12 < 12) from by omega),
      (show (12:Nat) + pad.length - 12 = pad.length from by omega),
      List.drop_left]
    try omega
  · have hblock : block.length = 36 := hblock.trans (by decide)
    have hL2 : block.length + pad.length ≤ 65535 := by omega
    have htake : List.take 36 (block ++ (pad ++ trailer)) = block := List.take_left' hblock
    have hdropb : List.drop 36 (block ++ (pad ++ trailer)) = pad ++ trailer := List.drop_left' hblock
    have htakeb : List.take 36 block = block := by rw [← hblock, List.take_length]
    have hdropb2 : List.drop 36 block = [] := by rw [← hblock, List.drop_length]
    have hbv : beVal ((36 + pad.length) / 256 % 256) ((36 + pad.length) % 256) = 36 + pad.length :=
      beVal_be16 _ (by omega)
    have hbv0 : beVal 0 36 = 36 := by decide
    unfold Read Reader.peek parseVersion2
    simp [Reader.discard, Reader.readByte, Reader.readN, Reader.peek, SIGV1, SIGV2, be16,
      isSupportedCommand, pvcIsLocal, isSupportedTransportProtocol, LOCAL, PROXY, mkReader,
      hbv, hbv0, validateLeastAddressLen, apIsIPv4, apIsIPv6,
      TCPv4, UDPv4, TCPv6, UDPv6, v4AddrLen, v6AddrLen,
      (show (33:Nat) &&& 240 = 32 from by decide), (show (33:Nat) &&& 15 = 1 from by decide),
      (show (33:Nat) &&& 240 = 32 from by decide),
      htake, hdropb, htakeb, hdropb2, hblock,
      (show ¬ (36:Nat) + pad.length < 36 from by omega),
      (show ¬((36:Nat) + pad.length ≤ 4096 → 36 + (pad.length + trailer.length) < 36 + pad.length) from by omega),
      (show ¬((36:Nat) ≤ 4096 → 36 < 36) from by omega),
      (show (36:Nat) + pad.length - 36 = pad.length from by omega),
      List.drop_left]
    try omega
  · have hblock : block.length = 36 := hblock.trans (by decide)
    have hL2 : block.length + pad.length ≤ 65535 := by omega
    have htake : List.take 36 (block ++ (pad ++ trailer)) = block := List.take_left' hblock
    have hdropb : List.drop 36 (block ++ (pad ++ trailer)) = pad ++ trailer := List.drop_left' hblock
    have htakeb : List.take 36 block = block := by rw [← hblock, List.take_length]
    have hdropb2 : List.drop 36 block = [] := by rw [← hblock, List.drop_length]
    have hbv : beVal ((36 + pad.length) / 256 % 256) ((36 + pad.length) % 256) = 36 + pad.length :=
      beVal_be16 _ (by omega)
    have hbv0 : beVal 0 36 = 36 := by decide
    unfold Read Reader.peek parseVersion2
    simp [Reader.discard, Reader.readByte, Reader.readN, Reader.peek, SIGV1, SIGV2, be16,
      isSupportedCommand, pvcIsLocal, isSupportedTransportProtocol, LOCAL, PROXY, mkReader,
      hbv, hbv0, validateLeastAddressLen, apIsIPv4, apIsIPv6,
      TCPv4, UDPv4, TCPv6, UDPv6, v4AddrLen, v6AddrLen,
      (show (33:Nat) &&& 240 = 32 from by decide), (show (33:Nat) &&& 15 = 1 from by decide),
      (show (34:Nat) &&& 240 = 32 from by decide),
      htake, hdropb, htakeb, hdropb2, hblock,
      (show ¬ (36:Nat) + pad.length < 36 from by omega),
      (show ¬((36:Nat) + pad.length ≤ 4096 → 36 + (pad.length + trailer.length) < 36 + pad.length) from by omega),
      (show ¬((36:Nat) ≤ 4096 → 36 < 36) from by omega),
      (show (36:Nat) + pad.length - 36 = pad.length from by omega),
      List.drop_left]
    try omega

/-- C8 witness: a 13-byte declared length (one padding byte) on a TCPv4
header followed by a two-byte trailer. -/
theorem c8_padding_drained_witness :
    isSupportedTransportProtocol TCPv4 = true ∧
    Read (mkReader (SIGV2 ++ PROXY :: TCPv4 :: (be16 13 ++
        ([127, 0, 0, 1, 10, 0, 0, 1, 0, 80, 1, 187] ++ ([7] ++ [9, 9]))))) =
      ((Read (mkReader (SIGV2 ++ PROXY :: TCPv4 ::
          (be16 12 ++ [127, 0, 0, 1, 10, 0, 0, 1, 0, 80, 1, 187])))).1,
        mkReader [9, 9]) :=
  ⟨by decide,
    c8_padding_drained TCPv4 [127, 0, 0, 1, 10, 0, 0, 1, 0, 80, 1, 187] [7] [9, 9]
      (by decide) (by decide) (by decide) (by decide)⟩

/-- C2 (code evaluation): on any wrapped connection whose stream carries no
proxy-protocol signature, the lazy parse stores a nil header, and both
`LocalAddr` and `RemoteAddr` then dereference that nil `*Header`
(`p.header.LocalAddr()`), modelled as the result `none` — a runtime panic —
instead of returning the physical addresses as the claim states. -/
theorem c2_accessor_nil_header_panic (c : NetConn)
    (h1 : c.stream.take 5 ≠ SIGV1) (h2 : c.stream.take 12 ≠ SIGV2) :
    (connRemoteAddr (newConn c)).1 = none ∧ (connLocalAddr (newConn c)).1 = none := by
  have hr := read_no_sig (mkReader c.stream) h1 h2
  constructor <;>
    simp [connRemoteAddr, connLocalAddr, connReadHeaderOnce, connReadHeader, newConn, hr]

/-- C2 witness: a plain client that sends `ping` and no header. -/
theorem c2_accessor_nil_header_panic_witness :
    pingConn.stream.take 5 ≠ SIGV1 ∧
    (connRemoteAddr (newConn pingConn)).1 = none ∧
    (connLocalAddr (newConn pingConn)).1 = none :=
  ⟨by decide, (c2_accessor_nil_header_panic pingConn (by decide) (by decide)).1,
    (c2_accessor_nil_header_panic pingConn (by decide) (by decide)).2⟩

/-- C3 (code evaluation): when the first `Read` call triggers the lazy parse
and the parse fails with a fatal decode error, that `Read` returns the error
to its caller — but the underlying connection is NOT closed on this path
(`Conn.Read` never calls `Close`; only the address-accessor path does),
contrary to the claim and to `Read`'s own doc comment. -/
theorem c3_read_fatal_error_conn_not_closed (c : NetConn) (e : Err)
    (he : e ≠ .noProxyProtocol)
    (hpe : (Read (mkReader c.stream)).1 = .error e) (hclosed : c.closed = false) (n : Nat) :
    (connRead (newConn c) n).1 = .error e ∧
      ((connRead (newConn c) n).2).conn.closed = false := by
  constructor <;> simp [connRead, connReadHeader, newConn, hpe, he, hclosed]

/-- C3 witness: the v2 signature followed by the unsupported command byte
0x99. -/
theorem c3_read_fatal_error_conn_not_closed_witness :
    (Read (mkReader invalidV2Conn.stream)).1 = .error .unsupportedProtocolVersionAndCommand ∧
    (connRead (newConn invalidV2Conn) 4).1 = .error .unsupportedProtocolVersionAndCommand ∧
    ((connRead (newConn invalidV2Conn) 4).2).conn.closed = false := by
  refine ⟨by rfl, ?_⟩
  exact c3_read_fatal_error_conn_not_closed invalidV2Conn
    .unsupportedProtocolVersionAndCommand (by decide) (by rfl) (by rfl) 4

/-- C4: when the caller-supplied trust function returns untrusted (`false`
without error), the accepted wrapped connection has `useConnAddr` set, and —
whatever valid header the stream carries — both `LocalAddr` and `RemoteAddr`
return the underlying connection's physical addresses. -/
theorem c4_untrusted_accessors_physical (c : NetConn) (check : Addr → Except Unit Bool)
    (hcheck : check c.remoteAddrPhys = .ok false)
    (hdr : Header) (hparse : (Read (mkReader c.stream)).1 = .ok hdr) :
    listenerAccept c (some check) = .ok { newConn c with useConnAddr := true } ∧
    (connLocalAddr { newConn c with useConnAddr := true }).1 = some c.localAddrPhys ∧
    (connRemoteAddr { newConn c with useConnAddr := true }).1 = some c.remoteAddrPhys := by
  refine ⟨by simp [listenerAccept, hcheck], ?_, ?_⟩ <;>
    simp [connLocalAddr, connRemoteAddr, connReadHeaderOnce, connReadHeader, newConn, hparse]

/-- C4 witness: an untrusted peer whose stream carries a valid v2 PROXY/TCPv4
header claiming addresses 1.2.3.4:80 and 5.6.7.8:81; the accessors still
return the physical 10.0.0.1:443 and 192.168.0.7:51000. -/
theorem c4_untrusted_accessors_physical_witness :
    ((fun _ => .ok false : Addr → Except Unit Bool) v2ProxyConn.remoteAddrPhys = .ok false) ∧
    (connLocalAddr { newConn v2ProxyConn with useConnAddr := true }).1 =
      some (.tcp [10, 0, 0, 1] 443) ∧
    (connRemoteAddr { newConn v2ProxyConn with useConnAddr := true }).1 =
      some (.tcp [192, 168, 0, 7] 51000) := by
  refine ⟨rfl, ?_, ?_⟩
  · exact (c4_untrusted_accessors_physical v2ProxyConn (fun _ => .ok false) rfl
      v2ProxyConnHeader (by rfl)).2.1
  · exact (c4_untrusted_accessors_physical v2ProxyConn (fun _ => .ok false) rfl
      v2ProxyConnHeader (by rfl)).2.2

/-- C6 (code evaluation): the v1 line `PROXY TCP6 x x 80 80` parses
SUCCESSFULLY to a header with nil source and destination addresses, because
for the v6-tagged protocols `parseV1IPAddress` only rejects when `To4` is
non-nil, and an unparsable token gives a nil IP whose `To4` is also nil.  The
claim (and the spec) say an unparsable token must fail with `InvalidAddress`. -/
theorem c6_v6_unparsable_address_accepted :
    Read (mkReader (SIGV1 ++ [0x20] ++ TCP6tok ++
        [0x20, 0x78, 0x20, 0x78, 0x20, 0x38, 0x30, 0x20, 0x38, 0x30, 0x0D, 0x0A])) =
      (.ok { Version := 1, SrcAddr := [], DstAddr := [], SrcPort := 80, DstPort := 80,
             Command := 0, TransportProtocol := TCPv6 }, mkReader []) ∧
    parseV1IPAddress TCPv6 [0x78] = .ok [] ∧ parseIP [0x78] = [] := by
  exact ⟨by rfl, by rfl, by rfl⟩

/-- Propagating an `Atoi` success into `parseV1Port`. -/
theorem parseV1Port_of_ok (s : List Nat) (v : Int) (h : atoi s = .ok v) :
    parseV1Port s = if v < 0 ∨ 65535 < v then .error .invalidPortNumber else .ok v.toNat := by
  unfold parseV1Port
  rw [h]

/-- Propagating an `Atoi` failure into `parseV1Port`. -/
theorem parseV1Port_of_err (s : List Nat) (e : Err) (h : atoi s = .error e) :
    parseV1Port s = .error e := by
  unfold parseV1Port
  rw [h]

/-- A digit string does not begin with a sign character. -/
theorem head_digit_facts (c : Nat) (t : List Nat) (hd : (c :: t).all isDigit = true) :
    c ≠ 0x2B ∧ c ≠ 0x2D := by
  have hc : isDigit c = true ∧ t.all isDigit = true := by simpa [List.all_cons] using hd
  have h1 := hc.1
  simp [isDigit] at h1
  omega

/-- Sign stripping is the identity on digit strings. -/
theorem atoiDigits_of_digits (s : List Nat) (hne : s ≠ []) (hd : s.all isDigit = true) :
    atoiDigits s = s := by
  rcases s with _ | ⟨c, t⟩
  · exact absurd rfl hne
  · obtain ⟨h43, h45⟩ := head_digit_facts c t hd
    simp [atoiDigits, h43, h45]

/-- `Atoi` on a nonempty digit string: its decimal value, or a range error
past the int64 maximum. -/
theorem atoi_of_digits (s : List Nat) (hne : s ≠ []) (hd : s.all isDigit = true) :
    atoi s = if 2 ^ 63 - 1 < decVal s then .error .atoiRange else .ok ((decVal s : Int)) := by
  have had := atoiDigits_of_digits s hne hd
  rcases s with _ | ⟨c, t⟩
  · exact absurd rfl hne
  · obtain ⟨h43, h45⟩ := head_digit_facts c t hd
    unfold atoi
    rw [had]
    rw [if_neg (by simp [hne, hd]), if_neg (by simp [h45])]

/-- `Atoi` on a minus sign followed by digits. -/
theorem atoi_of_neg_digits (rest : List Nat) (hne : rest ≠ [])
    (hd : rest.all isDigit = true) :
    atoi (0x2D :: rest) =
      if 2 ^ 63 < decVal rest then .error .atoiRange else .ok (-(decVal rest : Int)) := by
  have had : atoiDigits (0x2D :: rest) = rest := by simp [atoiDigits]
  unfold atoi
  rw [had, if_neg (by simp [hne, hd]), if_pos (by simp)]

/-- C5 counterexample: the non-numeric port token `x` makes `parseV1Port`
fail with the propagated `strconv.Atoi` syntax error, not with
`ErrInvalidPortNumber` as the claim states. -/
theorem c5_nonnumeric_port_counterexample :
    parseV1Port [0x78] = .error .atoiSyntax ∧ Err.atoiSyntax ≠ Err.invalidPortNumber :=
  ⟨by rfl, by decide⟩

/-- C5 amended: a port token that is a digit string with value at most 65535
is accepted with that value; a digit-string value above 65535 but within
int64 range fails with `InvalidPortNumber`, as does a negative in-range
value; but a token whose after-sign remainder is empty or non-numeric fails
with the propagated `Atoi` syntax error, and a digit string beyond the int64
maximum fails with the propagated `Atoi` range error — neither of those is
`InvalidPortNumber`. -/
theorem c5_port_parse_characterization (s : List Nat) :
    (s ≠ [] → s.all isDigit = true → decVal s ≤ 65535 →
      parseV1Port s = .ok (decVal s)) ∧
    (s ≠ [] → s.all isDigit = true → 65535 < decVal s → decVal s ≤ 2 ^ 63 - 1 →
      parseV1Port s = .error .invalidPortNumber) ∧
    (∀ rest, s = 0x2D :: rest → rest ≠ [] → rest.all isDigit = true →
      0 < decVal rest → decVal rest ≤ 2 ^ 63 →
      parseV1Port s = .error .invalidPortNumber) ∧
    (atoiDigits s = [] ∨ ¬ (atoiDigits s).all isDigit = true →
      parseV1Port s = .error .atoiSyntax) ∧
    (s ≠ [] → s.all isDigit = true → 2 ^ 63 - 1 < decVal s →
      parseV1Port s = .error .atoiRange) := by
  refine ⟨?_, ?_, ?_, ?_, ?_⟩
  · intro hne hd hle
    rw [parseV1Port_of_ok s (decVal s)
      (by rw [atoi_of_digits s hne hd, if_neg (by omega)])]
    rw [if_neg (by omega)]
    simp
  · intro hne hd hgt hle
    rw [parseV1Port_of_ok s (decVal s)
      (by rw [atoi_of_digits s hne hd, if_neg (by omega)])]
    rw [if_pos (Or.inr (by exact_mod_cast hgt))]
  · intro rest hs hne hd hpos hle
    subst hs
    rw [parseV1Port_of_ok _ (-(decVal rest : Int))
      (by rw [atoi_of_neg_digits rest hne hd, if_neg (by omega)])]
    rw [if_pos (Or.inl (by exact_mod_cast Int.neg_neg_of_pos (by exact_mod_cast hpos)))]
  · intro hcond
    exact parseV1Port_of_err s .atoiSyntax (by unfold atoi; rw [if_pos hcond])
  · intro hne hd hgt
    exact parseV1Port_of_err s .atoiRange
      (by rw [atoi_of_digits s hne hd, if_pos hgt])

/-- C5 witness: the bound instances of the claim — `0` parses to 0, `65535`
to 65535, `65536` is `InvalidPortNumber`, `-1` is `InvalidPortNumber`. -/
theorem c5_port_parse_characterization_witness :
    parseV1Port [0x30] = .ok 0 ∧
    parseV1Port [0x36, 0x35, 0x35, 0x33, 0x35] = .ok 65535 ∧
    parseV1Port [0x36, 0x35, 0x35, 0x33, 0x36] = .error .invalidPortNumber ∧
    parseV1Port [0x2D, 0x31] = .error .invalidPortNumber := by
  refine ⟨?_, ?_, ?_, ?_⟩
  · exact ((c5_port_parse_characterization [0x30]).1
      (by decide) (by decide) (by decide)).trans (by rfl)
  · exact ((c5_port_parse_characterization [0x36, 0x35, 0x35, 0x33, 0x35]).1
      (by decide) (by decide) (by decide)).trans (by rfl)
  · exact (c5_port_parse_characterization [0x36, 0x35, 0x35, 0x33, 0x36]).2.1
      (by decide) (by decide) (by decide) (by decide)
  · exact (c5_port_parse_characterization [0x2D, 0x31]).2.2.1 [0x31]
      rfl (by decide) (by decide) (by decide) (by decide)

/-! ## Decimal and hexadecimal text lemmas -/

theorem decValAux_ge (l : List Nat) (n : Nat) : n ≤ decValAux l n := by
  induction l generalizing n with
  | nil => exact Nat.le_refl n
  | cons c t ih =>
    calc n ≤ n * 10 + (c - 0x30) := by omega
    _ ≤ decValAux t (n * 10 + (c - 0x30)) := ih _

theorem decValAux_append (l1 l2 : List Nat) (n : Nat) :
    decValAux (l1 ++ l2) n = decValAux l2 (decValAux l1 n) := by
  induction l1 generalizing n with
  | nil => rfl
  | cons c t ih => simp [decValAux, ih]

theorem uitoa_ne_nil (n : Nat) : uitoa n ≠ [] := by
  rw [uitoa]
  split <;> simp

theorem uitoa_all_digits (n : Nat) : (uitoa n).all isDigit = true := by
  induction n using Nat.strong_induction_on with
  | _ n ih =>
    rw [uitoa]
    split
    · simp [isDigit]
      omega
    · rename_i h
      have := ih (n / 10) (Nat.div_lt_self (by omega) (by omega))
      simp [List.all_append, this, isDigit]
      omega

theorem decVal_uitoa (n : Nat) : decVal (uitoa n) = n := by
  induction n using Nat.strong_induction_on with
  | _ n ih =>
    rw [decVal, uitoa]
    split
    · simp only [decVal, decValAux]
      omega
    · rename_i h
      have := ih (n / 10) (Nat.div_lt_self (by omega) (by omega))
      rw [decValAux_append]
      rw [show decValAux (uitoa (n / 10)) 0 = decVal (uitoa (n / 10)) from rfl, this]
      simp only [decValAux]
      omega

theorem dtoiAux_go (l rest : List Nat) (acc i : Nat)
    (hl : l.all isDigit = true)
    (hrest : ∀ c, rest.head? = some c → isDigit c = false)
    (hb : decValAux l acc < 0xFFFFFF)
    (hi : 0 < i ∨ l ≠ []) :
    dtoiAux (l ++ rest) acc i = (decValAux l acc, i + l.length, true) := by
  induction l generalizing acc i with
  | nil =>
    rcases hi with hi | hi
    · rcases rest with _ | ⟨c, t⟩
      · simp [dtoiAux, Nat.pos_iff_ne_zero.mp hi, decValAux]
      · have := hrest c rfl
        simp [dtoiAux, this, Nat.pos_iff_ne_zero.mp hi, decValAux]
    · exact absurd rfl hi
  | cons c t ih =>
    have hct : isDigit c = true ∧ t.all isDigit = true := by simpa [List.all_cons] using hl
    have hb2 : decValAux t (acc * 10 + (c - 0x30)) < 0xFFFFFF := by
      simpa [decValAux] using hb
    have hover : ¬ 0xFFFFFF ≤ acc * 10 + (c - 0x30) := by
      have := decValAux_ge t (acc * 10 + (c - 0x30))
      omega
    simp only [List.cons_append, dtoiAux, hct.1, if_true, hover, if_false]
    rw [show t.append rest = t ++ rest from rfl,
      ih (acc * 10 + (c - 0x30)) (i + 1) hct.2 hb2 (Or.inl (by omega))]
    simp only [decValAux, List.length_cons, Prod.mk.injEq]
    refine ⟨trivial, by omega, trivial⟩



theorem hexDigitVal_hexDigitChar (d : Nat) (h : d < 16) :
    hexDigitVal (hexDigitChar d) = some d := by
  unfold hexDigitVal hexDigitChar
  split
  · rename_i hd
    rw [if_pos (by omega)]
    simp only [Option.some.injEq]
    omega
  · rename_i hd
    rw [if_neg (by omega), if_pos (by omega)]
    simp only [Option.some.injEq]
    omega

theorem hexValAux_ge (l : List Nat) (n : Nat) : n ≤ hexValAux l n := by
  induction l generalizing n with
  | nil => exact Nat.le_refl n
  | cons c t ih =>
    calc n ≤ n * 16 + (hexDigitVal c).getD 0 := by omega
    _ ≤ hexValAux t (n * 16 + (hexDigitVal c).getD 0) := ih _

theorem hexValAux_append (l1 l2 : List Nat) (n : Nat) :
    hexValAux (l1 ++ l2) n = hexValAux l2 (hexValAux l1 n) := by
  induction l1 generalizing n with
  | nil => rfl
  | cons c t ih => simp [hexValAux, ih]

theorem hexChars_ne_nil (n : Nat) : hexChars n ≠ [] := by
  rw [hexChars]
  split <;> simp

theorem hexChars_mem (n : Nat) : ∀ c ∈ hexChars n,
    (0x30 ≤ c ∧ c ≤ 0x39) ∨ (0x61 ≤ c ∧ c ≤ 0x66) := by
  induction n using Nat.strong_induction_on with
  | _ n ih =>
    rw [hexChars]
    split
    · rename_i h
      intro c hc
      simp at hc
      subst hc
      unfold hexDigitChar
      split <;> omega
    · rename_i h
      intro c hc
      simp at hc
      rcases hc with hc | hc
      · exact ih (n / 16) (Nat.div_lt_self (by omega) (by omega)) c hc
      · subst hc
        unfold hexDigitChar
        have : n % 16 < 16 := Nat.mod_lt _ (by omega)
        split <;> omega

theorem hexChars_all_hex (n : Nat) :
    (hexChars n).all (fun c => (hexDigitVal c).isSome) = true := by
  rw [List.all_eq_true]
  intro c hc
  rcases hexChars_mem n c hc with h | h
  · unfold hexDigitVal
    rw [if_pos (by omega)]
    simp
  · unfold hexDigitVal
    rw [if_neg (by omega), if_pos (by omega)]
    simp

theorem hexVal_hexChars (n : Nat) : hexValAux (hexChars n) 0 = n := by
  induction n using Nat.strong_induction_on with
  | _ n ih =>
    rw [hexChars]
    split
    · rename_i h
      simp only [hexValAux]
      rw [hexDigitVal_hexDigitChar n h]
      simp
    · rename_i h
      rw [hexValAux_append]
      rw [ih (n / 16) (Nat.div_lt_self (by omega) (by omega))]
      simp only [hexValAux]
      rw [hexDigitVal_hexDigitChar (n % 16) (Nat.mod_lt _ (by omega))]
      simp only [Option.getD_some]
      omega

theorem xtoiAux_go (l rest : List Nat) (acc i : Nat)
    (hl : l.all (fun c => (hexDigitVal c).isSome) = true)
    (hrest : ∀ c, rest.head? = some c → hexDigitVal c = none)
    (hb : hexValAux l acc < 0xFFFFFF)
    (hi : 0 < i ∨ l ≠ []) :
    xtoiAux (l ++ rest) acc i = (hexValAux l acc, i + l.length, true) := by
  induction l generalizing acc i with
  | nil =>
    rcases hi with hi | hi
    · rcases rest with _ | ⟨c, t⟩
      · simp [xtoiAux, Nat.pos_iff_ne_zero.mp hi, hexValAux]
      · have := hrest c rfl
        simp [xtoiAux, this, Nat.pos_iff_ne_zero.mp hi, hexValAux]
    · exact absurd rfl hi
  | cons c t ih =>
    have hct : (hexDigitVal c).isSome = true ∧ t.all (fun c => (hexDigitVal c).isSome) = true := by
      simpa [List.all_cons] using hl
    obtain ⟨d, hd⟩ := Option.isSome_iff_exists.mp hct.1
    have hb2 : hexValAux t (acc * 16 + d) < 0xFFFFFF := by
      have : hexValAux (c :: t) acc = hexValAux t (acc * 16 + d) := by
        simp [hexValAux, hd]
      omega
    have hover : ¬ 0xFFFFFF ≤ acc * 16 + d := by
      have := hexValAux_ge t (acc * 16 + d)
      omega
    simp only [List.cons_append, xtoiAux, hd, hover, if_false]
    rw [show t.append rest = t ++ rest from rfl,
      ih (acc * 16 + d) (i + 1) hct.2 hb2 (Or.inl (by omega))]
    simp only [hexValAux, hd, Option.getD_some, List.length_cons, Prod.mk.injEq]
    refine ⟨trivial, by omega, trivial⟩

theorem xtoi_hexChars (g : Nat) (rest : List Nat) (hg : g ≤ 0xFFFF)
    (hrest : ∀ c, rest.head? = some c → hexDigitVal c = none) :
    xtoi (hexChars g ++ rest) = (g, (hexChars g).length, true) := by
  unfold xtoi
  rw [xtoiAux_go (hexChars g) rest 0 0 (hexChars_all_hex g) hrest
    (by rw [hexVal_hexChars]; omega) (Or.inr (hexChars_ne_nil g))]
  rw [hexVal_hexChars]
  simp

theorem dtoi_digits (l rest : List Nat) (hl : l.all isDigit = true) (hne : l ≠ [])
    (hrest : ∀ c, rest.head? = some c → isDigit c = false)
    (hb : decVal l < 0xFFFFFF) :
    dtoi (l ++ rest) = (decVal l, l.length, true) := by
  unfold dtoi
  rw [dtoiAux_go l rest 0 0 hl hrest hb (Or.inr hne)]
  simp [decVal]



theorem digit_head_facts (l : List Nat) (hl : l.all isDigit = true) :
    ∀ c, l.head? = some c → (c ≠ 0x2E ∧ c ≠ 0x3A ∧ c ≠ 0x20) := by
  intro c hc
  rcases l with _ | ⟨x, t⟩
  · simp at hc
  · simp at hc
    have hx : isDigit x = true ∧ t.all isDigit = true := by simpa [List.all_cons] using hl
    have h1 := hx.1
    simp [isDigit] at h1
    omega

/-! ## Dotted-quad parsing lemmas -/

theorem uitoa_append_ne_nil (v : Nat) (rest : List Nat) : uitoa v ++ rest ≠ [] := by
  simp [uitoa_ne_nil v]

theorem parseIPv4Aux_first (k v : Nat) (rest : List Nat) (hv : v ≤ 255)
    (hrest : ∀ c, rest.head? = some c → isDigit c = false) :
    parseIPv4Aux (k + 1) (uitoa v ++ rest) [] = parseIPv4Aux k rest [v] := by
  simp only [parseIPv4Aux, uitoa_append_ne_nil v rest, if_false, stripDot, if_pos rfl, if_true]
  rw [dtoi_digits (uitoa v) rest (uitoa_all_digits v) (uitoa_ne_nil v) hrest
    (by rw [decVal_uitoa]; omega)]
  rw [if_neg (by push_neg; exact ⟨by simp, by rw [decVal_uitoa]; omega⟩)]
  simp only [decVal_uitoa, List.drop_left, List.nil_append]

theorem parseIPv4Aux_next (k v : Nat) (rest acc : List Nat) (hacc : acc ≠ [])
    (hv : v ≤ 255)
    (hrest : ∀ c, rest.head? = some c → isDigit c = false) :
    parseIPv4Aux (k + 1) (0x2E :: (uitoa v ++ rest)) acc =
      parseIPv4Aux k rest (acc ++ [v]) := by
  simp only [parseIPv4Aux, stripDot, if_neg hacc,
    (show ((0x2E :: (uitoa v ++ rest) : List Nat) = []) = False from by simp), if_false]
  rw [dtoi_digits (uitoa v) rest (uitoa_all_digits v) (uitoa_ne_nil v) hrest
    (by rw [decVal_uitoa]; omega)]
  rw [if_neg (by push_neg; exact ⟨by simp, by rw [decVal_uitoa]; omega⟩)]
  simp only [decVal_uitoa, List.drop_left]

theorem parseIPv4_dotted (a b c d : Nat)
    (ha : a ≤ 255) (hb : b ≤ 255) (hc : c ≤ 255) (hd : d ≤ 255) :
    parseIPv4 (uitoa a ++ 0x2E :: (uitoa b ++ 0x2E :: (uitoa c ++ 0x2E :: uitoa d))) =
      v4InV6 a b c d := by
  have hdot : ∀ (x : List Nat) (cc : Nat), (0x2E :: x).head? = some cc → isDigit cc = false := by
    intro x cc hcc
    simp at hcc
    subst hcc
    decide
  unfold parseIPv4
  rw [show (4 : Nat) = 3 + 1 from rfl, parseIPv4Aux_first 3 a _ ha (hdot _)]
  rw [show (3 : Nat) = 2 + 1 from rfl, parseIPv4Aux_next 2 b _ _ (by simp) hb (hdot _)]
  rw [show (2 : Nat) = 1 + 1 from rfl, parseIPv4Aux_next 1 c _ _ (by simp) hc (hdot _)]
  rw [show (46 : Nat) :: uitoa d = 46 :: (uitoa d ++ []) from by simp]
  rw [show (1 : Nat) = 0 + 1 from rfl, parseIPv4Aux_next 0 d [] _ (by simp) hd
    (by intro cc hcc; simp at hcc)]
  rfl

/-! ## IPv6 text parsing lemmas -/

theorem xtoi_hexChars_nil (g : Nat) (hg : g ≤ 0xFFFF) :
    xtoi (hexChars g) = (g, (hexChars g).length, true) := by
  have := xtoi_hexChars g [] hg (by intro c hc; simp at hc)
  simpa using this

theorem hexChars_exists_cons (g : Nat) :
    ∃ c0 cs, hexChars g = c0 :: cs ∧ ((0x30 ≤ c0 ∧ c0 ≤ 0x39) ∨ (0x61 ≤ c0 ∧ c0 ≤ 0x66)) := by
  rcases h : hexChars g with _ | ⟨c0, cs⟩
  · exact absurd h (hexChars_ne_nil g)
  · exact ⟨c0, cs, rfl, hexChars_mem g c0 (by rw [h]; simp)⟩

theorem groupBytes_length (gs : List Nat) : (groupBytes gs).length = 2 * gs.length := by
  induction gs with
  | nil => rfl
  | cons g t ih => simp [groupBytes, ih]; omega

theorem groupBytes_append (l1 l2 : List Nat) :
    groupBytes (l1 ++ l2) = groupBytes l1 ++ groupBytes l2 := by
  induction l1 with
  | nil => rfl
  | cons g t ih => simp [groupBytes, ih]

theorem hexJoin_cons_ne (g : Nat) (t : List Nat) :
    hexJoin (g :: t) = hexChars g ++ (if t = [] then [] else 0x3A :: hexJoin t) := by
  rcases t with _ | ⟨g2, t2⟩
  · simp [hexJoin]
  · simp [hexJoin]

theorem p6loop_groups (gs : List Nat) (acc : List Nat) (ell : Option Nat)
    (hgs : gs ≠ []) (hg : ∀ g ∈ gs, g ≤ 0xFFFF)
    (hlen : acc.length + 2 * gs.length ≤ 16) :
    p6loop (hexJoin gs) acc ell = p6exit [] (acc ++ groupBytes gs) ell := by
  induction gs generalizing acc with
  | nil => exact absurd rfl hgs
  | cons g t ih =>
    have hgle : g ≤ 0xFFFF := hg g (by simp)
    rw [p6loop]
    rw [if_neg (by simp at hlen ⊢; omega)]
    rcases t with _ | ⟨g2, t2⟩
    · -- last group
      rw [show hexJoin [g] = hexChars g from rfl, xtoi_hexChars_nil g hgle]
      simp only [List.drop_length, List.head?_nil]
      rw [if_neg (by simp; omega)]
      rw [if_neg (by simp)]
      rw [if_pos (by simp [List.drop_length])]
      simp [groupBytes]
    · -- more groups follow
      rw [show hexJoin (g :: g2 :: t2) = hexChars g ++ 0x3A :: hexJoin (g2 :: t2) from rfl]
      rw [xtoi_hexChars g (0x3A :: hexJoin (g2 :: t2)) hgle
        (by intro c hc; simp at hc; subst hc; decide)]
      simp only [List.drop_left, List.head?_cons]
      rw [if_neg (by simp; omega)]
      rw [if_neg (by simp)]
      obtain ⟨c0, cs, hc0, hc0r⟩ := hexChars_exists_cons g2
      have hjoin2 : ∃ tl, hexJoin (g2 :: t2) = c0 :: tl := by
        rw [hexJoin_cons_ne, hc0]
        exact ⟨cs ++ _, rfl⟩
      obtain ⟨tl, htl⟩ := hjoin2
      rw [if_neg (by rw [htl]; simp)]
      rw [if_neg (by push_neg; exact ⟨by simp, by rw [htl]; simp⟩)]
      rw [if_neg (by rw [List.tail_cons, htl]; simp; omega)]
      rw [List.tail_cons]
      rw [ih (acc ++ [g / 256, g % 256]) (by simp)
        (fun gg hm => hg gg (List.mem_cons_of_mem g hm))
        (by simp at hlen ⊢; omega)]
      simp [groupBytes]



theorem hexJoin_eq_nil_iff (gs : List Nat) : hexJoin gs = [] ↔ gs = [] := by
  constructor
  · intro h
    rcases gs with _ | ⟨g, t⟩
    · rfl
    · rw [hexJoin_cons_ne] at h
      rcases List.append_eq_nil.mp h with ⟨h1, _⟩
      exact absurd h1 (hexChars_ne_nil g)
  · intro h
    subst h
    rfl

theorem p6loop_pre_suf (pre suf : List Nat) (acc : List Nat)
    (hpre : pre ≠ []) (hgp : ∀ g ∈ pre, g ≤ 0xFFFF) (hgs : ∀ g ∈ suf, g ≤ 0xFFFF)
    (hlen : acc.length + 2 * pre.length + 2 * suf.length ≤ 16) :
    p6loop (hexJoin pre ++ 0x3A :: 0x3A :: hexJoin suf) acc none =
      p6exit [] ((acc ++ groupBytes pre) ++ groupBytes suf)
        (some (acc.length + 2 * pre.length)) := by
  induction pre generalizing acc with
  | nil => exact absurd rfl hpre
  | cons g t ih =>
    have hgle : g ≤ 0xFFFF := hgp g (by simp)
    rw [p6loop]
    rw [if_neg (by simp at hlen ⊢; omega)]
    rcases t with _ | ⟨g2, t2⟩
    · -- single prefix group, then the ellipsis
      rw [show hexJoin [g] ++ 0x3A :: 0x3A :: hexJoin suf =
        hexChars g ++ (0x3A :: 0x3A :: hexJoin suf) from rfl]
      rw [xtoi_hexChars g (0x3A :: 0x3A :: hexJoin suf) hgle
        (by intro c hc; simp at hc; subst hc; decide)]
      simp only [List.drop_left, List.head?_cons]
      rw [if_neg (by simp; omega)]
      rw [if_neg (by simp)]
      rw [if_neg (by simp)]
      rw [if_neg (by push_neg; exact ⟨by simp, by simp⟩)]
      rw [List.tail_cons]
      rw [if_pos (by simp)]
      rw [if_neg (by simp)]
      rw [List.tail_cons]
      rcases hsuf : suf with _ | ⟨s1, st⟩ <;> subst hsuf
      · rw [if_pos ((hexJoin_eq_nil_iff []).mpr rfl)]
        rw [show ((acc ++ groupBytes [g]) ++ groupBytes ([] : List Nat)) =
          acc ++ [g / 256, g % 256] from by simp [groupBytes]]
        rw [show acc.length + 2 * ([g] : List Nat).length =
          (acc ++ [g / 256, g % 256]).length from by simp]
      · rw [if_neg (by simp [hexJoin_eq_nil_iff])]
        rw [p6loop_groups (s1 :: st) (acc ++ [g / 256, g % 256]) _ (by simp)
          hgs (by simp at hlen ⊢; omega)]
        rw [show ((acc ++ [g / 256, g % 256]) ++ groupBytes (s1 :: st)) =
          ((acc ++ groupBytes [g]) ++ groupBytes (s1 :: st)) from by simp [groupBytes]]
        rw [show (acc ++ [g / 256, g % 256]).length =
          acc.length + 2 * ([g] : List Nat).length from by simp]
    · -- more prefix groups before the ellipsis
      rw [show hexJoin (g :: g2 :: t2) ++ 0x3A :: 0x3A :: hexJoin suf =
        hexChars g ++ (0x3A :: (hexJoin (g2 :: t2) ++ 0x3A :: 0x3A :: hexJoin suf)) from by
          rw [show hexJoin (g :: g2 :: t2) = hexChars g ++ 0x3A :: hexJoin (g2 :: t2) from rfl]
          simp]
      rw [xtoi_hexChars g _ hgle (by intro c hc; simp at hc; subst hc; decide)]
      simp only [List.drop_left, List.head?_cons]
      rw [if_neg (by simp; omega)]
      rw [if_neg (by simp)]
      obtain ⟨c0, cs, hc0, hc0r⟩ := hexChars_exists_cons g2
      have htl : ∃ tl, hexJoin (g2 :: t2) = c0 :: tl := by
        rw [hexJoin_cons_ne, hc0]
        exact ⟨cs ++ _, rfl⟩
      obtain ⟨tl, htl⟩ := htl
      rw [if_neg (by rw [htl]; simp)]
      rw [if_neg (by push_neg; exact ⟨by simp, by rw [htl]; simp⟩)]
      rw [List.tail_cons]
      rw [if_neg (by rw [htl]; simp; omega)]
      rw [ih (acc ++ [g / 256, g % 256]) (by simp)
        (fun gg hm => hgp gg (List.mem_cons_of_mem g hm))
        (by simp at hlen ⊢; omega)]
      rw [show ((acc ++ [g / 256, g % 256]) ++ groupBytes (g2 :: t2)) ++ groupBytes suf =
        ((acc ++ groupBytes (g :: g2 :: t2)) ++ groupBytes suf) from by simp [groupBytes]]
      rw [show (acc ++ [g / 256, g % 256]).length + 2 * (g2 :: t2).length =
        acc.length + 2 * (g :: g2 :: t2).length from by simp; omega]

end ProxyProto

namespace ProxyProto

theorem leadZeroGroups_le (l : List Nat) : leadZeroGroups l ≤ l.length := by
  induction l with
  | nil => simp [leadZeroGroups]
  | cons c t ih =>
    rcases Nat.eq_zero_or_pos c with hc | hc
    · subst hc
      simp [leadZeroGroups]
      omega
    · have : leadZeroGroups (c :: t) = 0 := by
        unfold leadZeroGroups
        split
        · rename_i heq
          injection heq with h1 h2
          omega
        · rfl
      omega

theorem leadZeroGroups_zeros (l : List Nat) :
    l.take (leadZeroGroups l) = List.replicate (leadZeroGroups l) 0 := by
  induction l with
  | nil => simp [leadZeroGroups]
  | cons c t ih =>
    rcases Nat.eq_zero_or_pos c with hc | hc
    · subst hc
      simp [leadZeroGroups, List.replicate_succ, ih]
    · have : leadZeroGroups (c :: t) = 0 := by
        unfold leadZeroGroups
        split
        · rename_i heq
          injection heq with h1 h2
          omega
        · rfl
      simp [this]

theorem zeroRunLoop_spec (fuel : Nat) : ∀ (gs : List Nat) (i : Nat)
    (best : Option (Nat × Nat)), gs.length - i ≤ fuel → goodRun gs best →
    goodRun gs (zeroRunLoop gs i best) := by
  induction fuel with
  | zero =>
    intro gs i best hfuel hbest
    rw [zeroRunLoop]
    rw [dif_neg (by omega)]
    exact hbest
  | succ fl ih =>
    intro gs i best hfuel hbest
    rw [zeroRunLoop]
    by_cases hlt : i < gs.length
    · rw [dif_pos hlt]
      by_cases hcond : 0 < leadZeroGroups (gs.drop i) ∧ bestLen best < leadZeroGroups (gs.drop i)
      · rw [if_pos hcond]
        have hle := leadZeroGroups_le (gs.drop i)
        rw [List.length_drop] at hle
        refine ih gs _ _ (by omega) ?_
        intro a b hab
        injection hab with hab
        injection hab with ha hb
        subst ha
        subst hb
        refine ⟨by omega, by omega, ?_⟩
        rw [show i + leadZeroGroups (gs.drop i) - i = leadZeroGroups (gs.drop i) from by omega]
        exact leadZeroGroups_zeros (gs.drop i)
      · rw [if_neg hcond]
        exact ih gs _ _ (by omega) hbest
    · rw [dif_neg hlt]
      exact hbest

theorem zeroRun_spec (gs : List Nat) (a b : Nat) (h : zeroRun gs = some (a, b)) :
    a + 2 ≤ b ∧ b ≤ gs.length ∧ (gs.drop a).take (b - a) = List.replicate (b - a) 0 := by
  unfold zeroRun at h
  rcases hl : zeroRunLoop gs 0 none with _ | ⟨a2, b2⟩
  · rw [hl] at h
    exact absurd h (by simp)
  · rw [hl] at h
    by_cases hba : b2 - a2 ≤ 1
    · simp [hba] at h
    · simp [hba] at h
      obtain ⟨h1, h2⟩ := h
      have hspec := zeroRunLoop_spec gs.length gs 0 none (by omega)
        (by intro x y hxy; exact absurd hxy (by simp))
      obtain ⟨g1, g2, g3⟩ := hspec a2 b2 hl
      rw [← h1, ← h2]
      exact ⟨by omega, g2, g3⟩

end ProxyProto

namespace ProxyProto

theorem groupBytes_replicate (n : Nat) :
    groupBytes (List.replicate n 0) = List.replicate (2 * n) 0 := by
  induction n with
  | zero => rfl
  | succ k ih =>
    rw [List.replicate_succ, show 2 * (k + 1) = (2 * k) + 1 + 1 from by omega,
      List.replicate_succ, List.replicate_succ]
    simp [groupBytes, ih]

theorem gs_decomposition (gs : List Nat) (a b : Nat) (hab : a ≤ b) (hb : b ≤ gs.length)
    (hz : (gs.drop a).take (b - a) = List.replicate (b - a) 0) :
    gs = gs.take a ++ List.replicate (b - a) 0 ++ gs.drop b := by
  rw [← hz]
  rw [show gs.drop b = (gs.drop a).drop (b - a) from by rw [List.drop_drop]; congr 1; omega]
  rw [List.append_assoc, List.take_append_drop, List.take_append_drop]

theorem hexJoin_head_ne_colon (g : Nat) (t rest : List Nat) :
    ¬ (2 ≤ (hexJoin (g :: t) ++ rest).length ∧ (hexJoin (g :: t) ++ rest).head? = some 0x3A ∧
       ((hexJoin (g :: t) ++ rest).drop 1).head? = some 0x3A) := by
  obtain ⟨c0, cs, hc0, hc0r⟩ := hexChars_exists_cons g
  have : ∃ tl, hexJoin (g :: t) = c0 :: tl := by
    rw [hexJoin_cons_ne, hc0]
    exact ⟨cs ++ _, rfl⟩
  obtain ⟨tl, htl⟩ := this
  rw [htl]
  rintro ⟨h1, h2, h3⟩
  simp at h2
  omega

theorem parseIPv6_dcolon (X : List Nat) (hne : X ≠ []) :
    parseIPv6 (0x3A :: 0x3A :: X) = p6loop X [] (some 0) := by
  unfold parseIPv6
  rw [if_pos (by refine ⟨?_, rfl, rfl⟩; simp)]
  show (if X = [] then some (List.replicate 16 0) else p6loop X [] (some 0)) =
    p6loop X [] (some 0)
  rw [if_neg hne]

theorem p6exit_some (acc : List Nat) (e : Nat) (hlt : acc.length < 16) :
    p6exit [] acc (some e) =
      some (acc.take e ++ List.replicate (16 - acc.length) 0 ++ acc.drop e) := by
  unfold p6exit
  rw [if_neg (by simp), if_pos hlt]


theorem parseIPv6_fmt (gs : List Nat) (h8 : gs.length = 8)
    (hg : ∀ g ∈ gs, g ≤ 0xFFFF) :
    parseIPv6 (fmtV6 gs) = some (groupBytes gs) := by
  rcases hgs : gs with _ | ⟨g0, gt⟩
  · rw [hgs] at h8; simp at h8
  rw [← hgs]
  unfold fmtV6
  rcases hzr : zeroRun gs with _ | ⟨a, b⟩
  · -- no compression: eight hex groups joined by colons
    show parseIPv6 (hexJoin gs) = some (groupBytes gs)
    unfold parseIPv6
    rw [if_neg (by
      rw [hgs, show hexJoin (g0 :: gt) = hexJoin (g0 :: gt) ++ [] from by simp]
      exact hexJoin_head_ne_colon g0 gt [])]
    rw [p6loop_groups gs [] none (by rw [hgs]; simp) hg (by simp; omega)]
    unfold p6exit
    rw [if_neg (by simp)]
    rw [if_neg (by rw [List.nil_append, groupBytes_length]; omega)]
    simp
  · -- a compressed zero run [a, b)
    show parseIPv6 (hexJoin (gs.take a) ++ [0x3A, 0x3A] ++ hexJoin (gs.drop b)) =
      some (groupBytes gs)
    obtain ⟨hab, hble, hz⟩ := zeroRun_spec gs a b hzr
    have hdecomp := gs_decomposition gs a b (by omega) hble hz
    have hgsuf : ∀ g ∈ gs.drop b, g ≤ 0xFFFF := fun g hm => hg g (List.drop_subset b gs hm)
    have hlsuf : (gs.drop b).length = 8 - b := by rw [List.length_drop, h8]
    rcases hta : gs.take a with _ | ⟨p0, pt⟩
    · -- leading ellipsis (a = 0)
      have ha0 : a = 0 := by
        have := congrArg List.length hta
        rw [List.length_take, h8] at this
        simp at this
        omega
      subst ha0
      simp only [List.take_zero] at hdecomp
      rcases hdb : gs.drop b with _ | ⟨s0, st⟩
      · -- the whole address is zero
        rw [hdb] at hdecomp
        have hb8 : b = 8 := by
          have := congrArg List.length hdecomp
          simp at this
          omega
        rw [show groupBytes gs = List.replicate 16 0 from by
          rw [hdecomp]
          simp only [Nat.sub_zero, List.append_nil, List.nil_append]
          rw [groupBytes_replicate]
          congr 1
          omega]
        rfl
      · -- ellipsis at the start, then groups
        rw [show hexJoin ([] : List Nat) ++ [0x3A, 0x3A] ++ hexJoin (s0 :: st) =
          0x3A :: 0x3A :: hexJoin (s0 :: st) from rfl]
        rw [parseIPv6_dcolon (hexJoin (s0 :: st)) (by simp [hexJoin_eq_nil_iff])]
        rw [hdb] at hgsuf hlsuf
        rw [p6loop_groups (s0 :: st) [] (some 0) (by simp) hgsuf
          (by simp only [List.length_nil]; omega)]
        rw [p6exit_some ([] ++ groupBytes (s0 :: st)) 0 (by
          rw [List.nil_append, groupBytes_length]
          simp only [List.length_cons] at hlsuf ⊢
          omega)]
        simp only [List.nil_append, List.take_zero, List.drop_zero]
        have hcount : 16 - (groupBytes (s0 :: st)).length = 2 * b := by
          rw [groupBytes_length, hlsuf]
          omega
        rw [hcount]
        rw [show groupBytes gs = List.replicate (2 * b) 0 ++ groupBytes (s0 :: st) from by
          rw [hdecomp, hdb]
          simp only [Nat.sub_zero, List.nil_append]
          rw [groupBytes_append, groupBytes_replicate]]
    · -- groups, then the ellipsis
      have hplen : (p0 :: pt).length = a := by
        rw [← hta, List.length_take, h8]
        omega
      unfold parseIPv6
      rw [if_neg (by
        rw [show hexJoin (p0 :: pt) ++ [0x3A, 0x3A] ++ hexJoin (gs.drop b) =
          hexJoin (p0 :: pt) ++ (0x3A :: 0x3A :: hexJoin (gs.drop b)) from by simp]
        exact hexJoin_head_ne_colon p0 pt _)]
      rw [show hexJoin (p0 :: pt) ++ [0x3A, 0x3A] ++ hexJoin (gs.drop b) =
        hexJoin (p0 :: pt) ++ 0x3A :: 0x3A :: hexJoin (gs.drop b) from by simp]
      rw [p6loop_pre_suf (p0 :: pt) (gs.drop b) [] (by simp)
        (by rw [← hta]; exact fun g hm => hg g (List.take_subset a gs hm))
        hgsuf
        (by
          rw [hplen, hlsuf]
          simp only [List.length_nil]
          omega)]
      rw [p6exit_some ((([] : List Nat) ++ groupBytes (p0 :: pt)) ++ groupBytes (gs.drop b))
        (([] : List Nat).length + 2 * (p0 :: pt).length) (by
          simp only [List.nil_append, List.length_append, groupBytes_length]
          rw [hplen, hlsuf]
          omega)]
      simp only [List.nil_append, List.length_nil, Nat.zero_add]
      rw [List.take_left' (by rw [groupBytes_length]),
        List.drop_left' (by rw [groupBytes_length])]
      have hcnt : 16 - (groupBytes (p0 :: pt) ++ groupBytes (gs.drop b)).length
          = 2 * (b - a) := by
        rw [List.length_append, groupBytes_length, groupBytes_length, hplen, hlsuf]
        omega
      rw [hcnt]
      rw [show groupBytes gs =
        groupBytes (p0 :: pt) ++ List.replicate (2 * (b - a)) 0 ++ groupBytes (gs.drop b)
        from by
          conv => lhs; rw [hdecomp, hta]
          rw [groupBytes_append, groupBytes_append, groupBytes_replicate]]

/-! ## Group/byte conversions for 16-byte addresses -/

theorem toGroups_length : ∀ ip : List Nat, (toGroups ip).length = ip.length / 2
  | [] => rfl
  | [_] => by simp [toGroups]
  | b0 :: b1 :: t => by
    simp only [toGroups, List.length_cons, toGroups_length t]
    omega

theorem toGroups_bounds : ∀ ip : List Nat, (∀ x ∈ ip, x ≤ 255) →
    ∀ g ∈ toGroups ip, g ≤ 0xFFFF
  | [] => by simp [toGroups]
  | [x] => by simp [toGroups]
  | b0 :: b1 :: t => by
    intro hb g hg
    simp only [toGroups, List.mem_cons] at hg
    rcases hg with hg | hg
    · have h0 : b0 ≤ 255 := hb b0 (by simp)
      have h1 : b1 ≤ 255 := hb b1 (by simp)
      omega
    · exact toGroups_bounds t (fun x hx => hb x (by simp [hx])) g hg

theorem groupBytes_toGroups : ∀ ip : List Nat, ip.length % 2 = 0 →
    (∀ x ∈ ip, x ≤ 255) → groupBytes (toGroups ip) = ip
  | [], _, _ => rfl
  | [_], h, _ => by simp at h
  | b0 :: b1 :: t, h, hb => by
    have h1 : b1 ≤ 255 := hb b1 (by simp)
    simp only [toGroups, groupBytes]
    rw [groupBytes_toGroups t (by simp only [List.length_cons] at h; omega)
      (fun x hx => hb x (by simp [hx]))]
    congr 1
    · omega
    · congr 1
      omega

/-! ## Character classes of the rendered address texts -/

/-- The first dot-or-colon in a string whose only dot-or-colon characters are
`x`, which occurs. -/
theorem find_first_sep (x : Nat) : ∀ l : List Nat,
    (∀ c ∈ l, ((c == 0x2E || c == 0x3A) = true) → c = x) →
    (∃ c ∈ l, (c == 0x2E || c == 0x3A) = true) →
    l.find? (fun c => c == 0x2E || c == 0x3A) = some x := by
  intro l
  induction l with
  | nil => intro _ hex; simp at hex
  | cons a t ih =>
    intro hall hex
    by_cases ha : ((a == 0x2E || a == 0x3A) = true)
    · rw [show (a :: t).find? (fun c => c == 0x2E || c == 0x3A) = some a from by
        simp [List.find?_cons, ha]]
      rw [hall a (by simp) ha]
    · rw [show (a :: t).find? (fun c => c == 0x2E || c == 0x3A) =
          t.find? (fun c => c == 0x2E || c == 0x3A) from by
        simp only [List.find?_cons, Bool.not_eq_true] at *
        rw [ha]]
      refine ih (fun c hc h => hall c (by simp [hc]) h) ?_
      obtain ⟨c, hc, hcp⟩ := hex
      rcases List.mem_cons.mp hc with h | h
      · subst h; exact absurd hcp ha
      · exact ⟨c, h, hcp⟩

theorem hexJoin_mem : ∀ gs : List Nat, ∀ c ∈ hexJoin gs,
    (0x30 ≤ c ∧ c ≤ 0x39) ∨ (0x61 ≤ c ∧ c ≤ 0x66) ∨ c = 0x3A
  | [] => by simp [hexJoin]
  | [g] => by
    intro c hc
    rcases hexChars_mem g c hc with h | h
    · exact Or.inl h
    · exact Or.inr (Or.inl h)
  | g :: g2 :: rest => by
    intro c hc
    rw [show hexJoin (g :: g2 :: rest) = hexChars g ++ 0x3A :: hexJoin (g2 :: rest)
      from rfl] at hc
    rcases List.mem_append.mp hc with h | h
    · rcases hexChars_mem g c h with h2 | h2
      · exact Or.inl h2
      · exact Or.inr (Or.inl h2)
    · rcases List.mem_cons.mp h with h2 | h2
      · exact Or.inr (Or.inr h2)
      · exact hexJoin_mem (g2 :: rest) c h2

theorem fmtV6_mem (gs : List Nat) : ∀ c ∈ fmtV6 gs,
    (0x30 ≤ c ∧ c ≤ 0x39) ∨ (0x61 ≤ c ∧ c ≤ 0x66) ∨ c = 0x3A := by
  unfold fmtV6
  rcases zeroRun gs with _ | ⟨a, b⟩
  · exact hexJoin_mem gs
  · intro c hc
    simp only [List.append_assoc, List.mem_append, List.mem_cons, List.not_mem_nil,
      or_false] at hc
    rcases hc with h | (h | h) | h
    · exact hexJoin_mem _ c h
    · exact Or.inr (Or.inr h)
    · exact Or.inr (Or.inr h)
    · exact hexJoin_mem _ c h

theorem colon_mem_fmtV6 (gs : List Nat) (h2 : 2 ≤ gs.length) : (0x3A : Nat) ∈ fmtV6 gs := by
  unfold fmtV6
  rcases hzr : zeroRun gs with _ | ⟨a, b⟩
  · rcases gs with _ | ⟨g0, t⟩
    · simp at h2
    rcases t with _ | ⟨g1, t2⟩
    · simp at h2
    rw [show hexJoin (g0 :: g1 :: t2) = hexChars g0 ++ 0x3A :: hexJoin (g1 :: t2) from rfl]
    simp
  · simp

/-- The rendered IPv6 text is dispatched to the IPv6 parser: its first
dot-or-colon is a colon. -/
theorem parseIP_v6text (gs : List Nat) (h8 : gs.length = 8)
    (hg : ∀ g ∈ gs, g ≤ 0xFFFF) :
    parseIP (fmtV6 gs) = groupBytes gs := by
  unfold parseIP
  rw [find_first_sep 0x3A (fmtV6 gs)
    (by
      intro c hc hp
      rcases fmtV6_mem gs c hc with h | h | h
      · simp at hp; omega
      · simp at hp; omega
      · exact h)
    ⟨0x3A, colon_mem_fmtV6 gs (by omega), by decide⟩]
  rw [parseIPv6_fmt gs h8 hg]

/-! ## The rendered dotted-quad text -/

theorem to4_v4InV6 (a b c d : Nat) : to4 (v4InV6 a b c d) = [a, b, c, d] := rfl

theorem ipString_v4 (a b c d : Nat) :
    ipString [a, b, c, d] =
      uitoa a ++ [0x2E] ++ uitoa b ++ [0x2E] ++ uitoa c ++ [0x2E] ++ uitoa d := by
  unfold ipString
  rw [if_neg (by simp)]
  rw [show to4 [a, b, c, d] = [a, b, c, d] from by unfold to4; rw [if_pos (by simp)]]

theorem ipString_v16 (ip : List Nat) (h16 : ip.length = 16) (h4 : to4 ip = []) :
    ipString ip = fmtV6 (toGroups ip) := by
  unfold ipString
  rw [if_neg (by intro h; rw [h] at h16; simp at h16), h4]
  rw [if_pos h16]

theorem dotted_mem (a b c d : Nat) :
    ∀ ch ∈ uitoa a ++ [0x2E] ++ uitoa b ++ [0x2E] ++ uitoa c ++ [0x2E] ++ uitoa d,
      (0x30 ≤ ch ∧ ch ≤ 0x39) ∨ ch = 0x2E := by
  intro ch hch
  have hdig : ∀ v : Nat, ch ∈ uitoa v → (0x30 ≤ ch ∧ ch ≤ 0x39) := by
    intro v hv
    have := List.all_eq_true.mp (uitoa_all_digits v) ch hv
    simp [isDigit] at this
    omega
  simp only [List.append_assoc, List.mem_append, List.mem_cons, List.not_mem_nil,
    or_false] at hch
  rcases hch with h | h | h | h | h | h | h
  · exact Or.inl (hdig a h)
  · exact Or.inr h
  · exact Or.inl (hdig b h)
  · exact Or.inr h
  · exact Or.inl (hdig c h)
  · exact Or.inr h
  · exact Or.inl (hdig d h)

/-- The rendered dotted quad is dispatched to the IPv4 parser: its first
dot-or-colon is a dot. -/
theorem parseIP_dotted (a b c d : Nat)
    (ha : a ≤ 255) (hb : b ≤ 255) (hc : c ≤ 255) (hd : d ≤ 255) :
    parseIP (uitoa a ++ [0x2E] ++ uitoa b ++ [0x2E] ++ uitoa c ++ [0x2E] ++ uitoa d) =
      v4InV6 a b c d := by
  unfold parseIP
  rw [find_first_sep 0x2E _
    (by
      intro ch hch hp
      rcases dotted_mem a b c d ch hch with h | h
      · simp at hp; omega
      · exact h)
    ⟨0x2E, by simp, by decide⟩]
  rw [show uitoa a ++ [0x2E] ++ uitoa b ++ [0x2E] ++ uitoa c ++ [0x2E] ++ uitoa d =
      uitoa a ++ 0x2E :: (uitoa b ++ 0x2E :: (uitoa c ++ 0x2E :: uitoa d)) from by simp]
  rw [parseIPv4_dotted a b c d ha hb hc hd]

/-! ## Round trips of the v1 address and port tokens -/

theorem parseV1IPAddress_v4 (proto a b c d : Nat)
    (hp : proto = TCPv4 ∨ proto = UDPv4)
    (ha : a ≤ 255) (hb : b ≤ 255) (hc : c ≤ 255) (hd : d ≤ 255) :
    parseV1IPAddress proto (ipString [a, b, c, d]) = .ok (v4InV6 a b c d) := by
  unfold parseV1IPAddress
  rw [ipString_v4, parseIP_dotted a b c d ha hb hc hd]
  rw [if_pos hp, to4_v4InV6]
  rw [if_neg (by simp)]

theorem parseV1IPAddress_v6 (proto : Nat) (ip : List Nat)
    (hp : proto = TCPv6 ∨ proto = UDPv6)
    (h16 : ip.length = 16) (h4 : to4 ip = []) (hb : ∀ x ∈ ip, x ≤ 255) :
    parseV1IPAddress proto (ipString ip) = .ok ip := by
  unfold parseV1IPAddress
  rw [ipString_v16 ip h16 h4]
  rw [parseIP_v6text (toGroups ip) (by rw [toGroups_length, h16]) (toGroups_bounds ip hb)]
  rw [groupBytes_toGroups ip (by omega) hb]
  rw [if_neg (by rcases hp with h | h <;> subst h <;> decide), if_pos hp]
  rw [if_neg (by simp [h4])]

theorem parseV1Port_uitoa (p : Nat) (hp : p ≤ 65535) : parseV1Port (uitoa p) = .ok p := by
  rw [parseV1Port_of_ok (uitoa p) p
    (by
      rw [atoi_of_digits (uitoa p) (uitoa_ne_nil p) (uitoa_all_digits p)]
      rw [if_neg (by rw [decVal_uitoa]; omega)]
      rw [decVal_uitoa])]
  rw [if_neg (by omega)]
  simp

/-! ## The v1 line structure -/

theorem findIdx_lf_go (L rest : List Nat) (h : ¬ (0x0A : Nat) ∈ L) : ∀ i : Nat,
    (L ++ 0x0A :: rest).findIdx? (fun b => b == 0x0A) i = some (i + L.length) := by
  induction L with
  | nil => intro i; simp [List.findIdx?_cons]
  | cons a t ih =>
    intro i
    have ha : (a == 0x0A) = false := by
      simp only [List.mem_cons, not_or] at h
      simp only [beq_eq_false_iff_ne, ne_eq]
      omega
    simp only [List.cons_append, List.findIdx?_cons, ha, cond_false]
    rw [ih (by simp only [List.mem_cons, not_or] at h; exact h.2) (i + 1)]
    rw [if_neg (by simp)]
    congr 1
    simp only [List.length_cons]
    omega

theorem findIdx_lf (L rest : List Nat) (h : ¬ (0x0A : Nat) ∈ L) :
    (L ++ 0x0A :: rest).findIdx? (fun b => b == 0x0A) = some L.length := by
  have := findIdx_lf_go L rest h 0
  simpa using this

theorem readStringLF_line (body rest : List Nat) (h : ¬ (0x0A : Nat) ∈ body) :
    Reader.readStringLF ⟨body ++ 0x0D :: 0x0A :: rest, 4096⟩ = (body ++ CRLF, ⟨rest, 4096⟩) := by
  have hsplit : body ++ 0x0D :: 0x0A :: rest = (body ++ [0x0D]) ++ 0x0A :: rest := by simp
  have hnol : ¬ (0x0A : Nat) ∈ body ++ [0x0D] := by
    simp only [List.mem_append, List.mem_singleton]
    push_neg
    exact ⟨h, by decide⟩
  unfold Reader.readStringLF
  simp only [hsplit]
  rw [findIdx_lf (body ++ [0x0D]) rest hnol]
  show (((body ++ [0x0D]) ++ 0x0A :: rest).take ((body ++ [0x0D]).length + 1),
      (⟨((body ++ [0x0D]) ++ 0x0A :: rest).drop ((body ++ [0x0D]).length + 1), 4096⟩ : Reader)) =
    (body ++ CRLF, ⟨rest, 4096⟩)
  have h1 : (body ++ [0x0D]) ++ 0x0A :: rest = (body ++ [0x0D, 0x0A]) ++ rest := by simp
  have h2 : (body ++ [(0x0D : Nat)]).length + 1 = (body ++ [0x0D, 0x0A]).length := by simp
  rw [h1, h2, List.take_left, List.drop_left]
  simp [CRLF]

theorem crlf_suffix (body : List Nat) : CRLF.isSuffixOf (body ++ CRLF) = true := by
  simp [List.isSuffixOf, CRLF, List.isPrefixOf]

theorem dropLast2 (body : List Nat) : (body ++ CRLF).dropLast.dropLast = body := by
  rw [show body ++ CRLF = (body ++ [0x0D]) ++ [0x0A] from by simp [CRLF]]
  rw [List.dropLast_concat, List.dropLast_concat]

theorem v1_split_body (tok t2 t3 t4 t5 : List Nat)
    (hs1 : (0x20 : Nat) ∉ tok) (hs2 : (0x20 : Nat) ∉ t2) (hs3 : (0x20 : Nat) ∉ t3)
    (hs4 : (0x20 : Nat) ∉ t4) (hs5 : (0x20 : Nat) ∉ t5) :
    (SIGV1 ++ [v1Sep] ++ tok ++ [v1Sep] ++ t2 ++ [v1Sep] ++ t3 ++ [v1Sep] ++ t4 ++
        [v1Sep] ++ t5).splitOn v1Sep = [SIGV1, tok, t2, t3, t4, t5] := by
  rw [show SIGV1 ++ [v1Sep] ++ tok ++ [v1Sep] ++ t2 ++ [v1Sep] ++ t3 ++ [v1Sep] ++ t4 ++
      [v1Sep] ++ t5 = [v1Sep].intercalate [SIGV1, tok, t2, t3, t4, t5] from by
    simp [List.intercalate, List.intersperse]]
  refine List.splitOn_intercalate [SIGV1, tok, t2, t3, t4, t5] v1Sep ?_ (by simp)
  intro l hl
  simp only [List.mem_cons, List.not_mem_nil, or_false] at hl
  rcases hl with h | h | h | h | h | h
  · subst h; decide
  · subst h; exact hs1
  · subst h; exact hs2
  · subst h; exact hs3
  · subst h; exact hs4
  · subst h; exact hs5

theorem parseVersion1_reduce (tok t2 t3 t4 t5 : List Nat)
    (hl1 : (0x0A : Nat) ∉ tok) (hs1 : (0x20 : Nat) ∉ tok)
    (hl2 : (0x0A : Nat) ∉ t2) (hs2 : (0x20 : Nat) ∉ t2)
    (hl3 : (0x0A : Nat) ∉ t3) (hs3 : (0x20 : Nat) ∉ t3)
    (hl4 : (0x0A : Nat) ∉ t4) (hs4 : (0x20 : Nat) ∉ t4)
    (hl5 : (0x0A : Nat) ∉ t5) (hs5 : (0x20 : Nat) ∉ t5) :
    parseVersion1 (mkReader (SIGV1 ++ [v1Sep] ++ tok ++ [v1Sep] ++ t2 ++ [v1Sep] ++ t3 ++
        [v1Sep] ++ t4 ++ [v1Sep] ++ t5 ++ CRLF)) =
      (v1Assemble (if tok = TCP4tok then TCPv4 else if tok = TCP6tok then TCPv6 else UNSPEC)
        t2 t3 t4 t5, mkReader []) := by
  have hnolf : ¬ (0x0A : Nat) ∈ SIGV1 ++ [v1Sep] ++ tok ++ [v1Sep] ++ t2 ++ [v1Sep] ++ t3 ++
      [v1Sep] ++ t4 ++ [v1Sep] ++ t5 := by
    simp only [List.append_assoc, List.mem_append, List.mem_cons, List.not_mem_nil, or_false,
      not_or]
    refine ⟨by decide, by decide, hl1, by decide, hl2, by decide, hl3, by decide, hl4,
      by decide, hl5⟩
  have hline := readStringLF_line (SIGV1 ++ [v1Sep] ++ tok ++ [v1Sep] ++ t2 ++ [v1Sep] ++ t3 ++
      [v1Sep] ++ t4 ++ [v1Sep] ++ t5) [] hnolf
  have hstream : mkReader (SIGV1 ++ [v1Sep] ++ tok ++ [v1Sep] ++ t2 ++ [v1Sep] ++ t3 ++
      [v1Sep] ++ t4 ++ [v1Sep] ++ t5 ++ CRLF) =
      (⟨(SIGV1 ++ [v1Sep] ++ tok ++ [v1Sep] ++ t2 ++ [v1Sep] ++ t3 ++
        [v1Sep] ++ t4 ++ [v1Sep] ++ t5) ++ 0x0D :: 0x0A :: [], 4096⟩ : Reader) := by
    simp [mkReader, CRLF]
  unfold parseVersion1
  rw [hstream, hline]
  simp only [crlf_suffix, Bool.true_eq_false, not_true_eq_false, if_false, dropLast2,
    v1_split_body tok t2 t3 t4 t5 hs1 hs2 hs3 hs4 hs5]
  rw [if_neg (by simp)]
  unfold v1Assemble
  rcases parseV1IPAddress (if tok = TCP4tok then TCPv4 else if tok = TCP6tok then TCPv6
      else UNSPEC) t2 with e | srcA
  · rfl
  rcases parseV1IPAddress (if tok = TCP4tok then TCPv4 else if tok = TCP6tok then TCPv6
      else UNSPEC) t3 with e | dstA
  · rfl
  rcases parseV1Port t4 with e | srcP
  · rfl
  rcases parseV1Port t5 with e | dstP
  · rfl
  rfl

theorem dotted_no_lf_sp (a b c d : Nat) :
    (0x0A : Nat) ∉ (uitoa a ++ [0x2E] ++ uitoa b ++ [0x2E] ++ uitoa c ++ [0x2E] ++ uitoa d) ∧
    (0x20 : Nat) ∉ (uitoa a ++ [0x2E] ++ uitoa b ++ [0x2E] ++ uitoa c ++ [0x2E] ++ uitoa d) := by
  constructor <;> intro hmem <;> rcases dotted_mem a b c d _ hmem with h | h <;> omega

theorem fmtV6_no_lf_sp (gs : List Nat) :
    (0x0A : Nat) ∉ fmtV6 gs ∧ (0x20 : Nat) ∉ fmtV6 gs := by
  constructor <;> intro hmem <;> rcases fmtV6_mem gs _ hmem with h | h | h <;> omega

theorem uitoa_no_lf_sp (v : Nat) : (0x0A : Nat) ∉ uitoa v ∧ (0x20 : Nat) ∉ uitoa v := by
  constructor <;> intro hmem <;>
    have := List.all_eq_true.mp (uitoa_all_digits v) _ hmem <;>
    simp [isDigit] at this

/-- `Read` dispatches any stream that begins with the five v1 signature bytes
to `parseVersion1`, with nothing consumed by the signature test. -/
theorem read_v1_dispatch (s : List Nat) (h5 : s.take 5 = SIGV1) :
    Read (mkReader s) = parseVersion1 (mkReader s) := by
  unfold Read
  have hlen : 5 ≤ s.length := by
    have := congrArg List.length h5
    rw [List.length_take] at this
    simp [SIGV1] at this
    omega
  have h1 : s.take 1 = [0x50] := by
    have ht : s.take 1 = (s.take 5).take 1 := by
      rw [List.take_take]
      congr 1
    rw [ht, h5]
    rfl
  simp [Reader.peek, mkReader, h5, h1, (show (1:Nat) ≤ s.length from by omega), hlen, SIGV1]

/-- Writing and re-reading a v1 TCPv4 header: the transport, addresses and
ports survive, the addresses in 16-byte mapped form, but `Command` comes back
as its zero value whatever was written. -/
theorem read_write_v1_tcp4 (a b c d e f g i sp dp cmd : Nat)
    (ha : a ≤ 255) (hb : b ≤ 255) (hc : c ≤ 255) (hd : d ≤ 255)
    (he : e ≤ 255) (hf : f ≤ 255) (hg : g ≤ 255) (hi : i ≤ 255)
    (hsp : sp ≤ 65535) (hdp : dp ≤ 65535) :
    Read (mkReader (writeVersion1
        { Version := 1, SrcAddr := [a, b, c, d], DstAddr := [e, f, g, i],
          SrcPort := sp, DstPort := dp, Command := cmd, TransportProtocol := TCPv4 })) =
      (.ok { Version := 1, SrcAddr := v4InV6 a b c d, DstAddr := v4InV6 e f g i,
             SrcPort := sp, DstPort := dp, Command := 0, TransportProtocol := TCPv4 },
       mkReader []) := by
  have hw : writeVersion1
      { Version := 1, SrcAddr := [a, b, c, d], DstAddr := [e, f, g, i],
        SrcPort := sp, DstPort := dp, Command := cmd, TransportProtocol := TCPv4 } =
      SIGV1 ++ [v1Sep] ++ TCP4tok ++ [v1Sep] ++ ipString [a, b, c, d] ++ [v1Sep] ++
        ipString [e, f, g, i] ++ [v1Sep] ++ uitoa sp ++ [v1Sep] ++ uitoa dp ++ CRLF := by
    unfold writeVersion1
    rw [if_pos rfl]
  rw [hw]
  rw [read_v1_dispatch _ (by
    rw [show SIGV1 ++ [v1Sep] ++ TCP4tok ++ [v1Sep] ++ ipString [a, b, c, d] ++ [v1Sep] ++
        ipString [e, f, g, i] ++ [v1Sep] ++ uitoa sp ++ [v1Sep] ++ uitoa dp ++ CRLF =
      SIGV1 ++ ([v1Sep] ++ TCP4tok ++ [v1Sep] ++ ipString [a, b, c, d] ++ [v1Sep] ++
        ipString [e, f, g, i] ++ [v1Sep] ++ uitoa sp ++ [v1Sep] ++ uitoa dp ++ CRLF) from by
      simp [List.append_assoc]]
    exact List.take_left' (by decide))]
  rw [parseVersion1_reduce TCP4tok (ipString [a, b, c, d]) (ipString [e, f, g, i])
    (uitoa sp) (uitoa dp)
    (by decide) (by decide)
    (by rw [ipString_v4]; exact (dotted_no_lf_sp a b c d).1)
    (by rw [ipString_v4]; exact (dotted_no_lf_sp a b c d).2)
    (by rw [ipString_v4]; exact (dotted_no_lf_sp e f g i).1)
    (by rw [ipString_v4]; exact (dotted_no_lf_sp e f g i).2)
    ((uitoa_no_lf_sp sp).1) ((uitoa_no_lf_sp sp).2)
    ((uitoa_no_lf_sp dp).1) ((uitoa_no_lf_sp dp).2)]
  rw [if_pos rfl]
  unfold v1Assemble
  rw [parseV1IPAddress_v4 TCPv4 a b c d (Or.inl rfl) ha hb hc hd]
  rw [parseV1IPAddress_v4 TCPv4 e f g i (Or.inl rfl) he hf hg hi]
  rw [parseV1Port_uitoa sp hsp, parseV1Port_uitoa dp hdp]

/-- Writing and re-reading a v1 TCPv6 header with a genuinely-IPv6 pair of
16-byte addresses: everything but `Command` survives. -/
theorem read_write_v1_tcp6 (src dst : List Nat) (sp dp cmd : Nat)
    (hs16 : src.length = 16) (hs4 : to4 src = []) (hsb : ∀ x ∈ src, x ≤ 255)
    (hd16 : dst.length = 16) (hd4 : to4 dst = []) (hdb : ∀ x ∈ dst, x ≤ 255)
    (hsp : sp ≤ 65535) (hdp : dp ≤ 65535) :
    Read (mkReader (writeVersion1
        { Version := 1, SrcAddr := src, DstAddr := dst,
          SrcPort := sp, DstPort := dp, Command := cmd, TransportProtocol := TCPv6 })) =
      (.ok { Version := 1, SrcAddr := src, DstAddr := dst,
             SrcPort := sp, DstPort := dp, Command := 0, TransportProtocol := TCPv6 },
       mkReader []) := by
  have hw : writeVersion1
      { Version := 1, SrcAddr := src, DstAddr := dst,
        SrcPort := sp, DstPort := dp, Command := cmd, TransportProtocol := TCPv6 } =
      SIGV1 ++ [v1Sep] ++ TCP6tok ++ [v1Sep] ++ ipString src ++ [v1Sep] ++
        ipString dst ++ [v1Sep] ++ uitoa sp ++ [v1Sep] ++ uitoa dp ++ CRLF := by
    unfold writeVersion1
    rw [if_neg (by show ¬ TCPv6 = TCPv4; decide), if_pos rfl]
  rw [hw]
  rw [read_v1_dispatch _ (by
    rw [show SIGV1 ++ [v1Sep] ++ TCP6tok ++ [v1Sep] ++ ipString src ++ [v1Sep] ++
        ipString dst ++ [v1Sep] ++ uitoa sp ++ [v1Sep] ++ uitoa dp ++ CRLF =
      SIGV1 ++ ([v1Sep] ++ TCP6tok ++ [v1Sep] ++ ipString src ++ [v1Sep] ++
        ipString dst ++ [v1Sep] ++ uitoa sp ++ [v1Sep] ++ uitoa dp ++ CRLF) from by
      simp [List.append_assoc]]
    exact List.take_left' (by decide))]
  rw [parseVersion1_reduce TCP6tok (ipString src) (ipString dst) (uitoa sp) (uitoa dp)
    (by decide) (by decide)
    (by rw [ipString_v16 src hs16 hs4]; exact (fmtV6_no_lf_sp (toGroups src)).1)
    (by rw [ipString_v16 src hs16 hs4]; exact (fmtV6_no_lf_sp (toGroups src)).2)
    (by rw [ipString_v16 dst hd16 hd4]; exact (fmtV6_no_lf_sp (toGroups dst)).1)
    (by rw [ipString_v16 dst hd16 hd4]; exact (fmtV6_no_lf_sp (toGroups dst)).2)
    ((uitoa_no_lf_sp sp).1) ((uitoa_no_lf_sp sp).2)
    ((uitoa_no_lf_sp dp).1) ((uitoa_no_lf_sp dp).2)]
  rw [if_neg (by decide), if_pos rfl]
  unfold v1Assemble
  rw [parseV1IPAddress_v6 TCPv6 src (Or.inl rfl) hs16 hs4 hsb]
  rw [parseV1IPAddress_v6 TCPv6 dst (Or.inl rfl) hd16 hd4 hdb]
  rw [parseV1Port_uitoa sp hsp, parseV1Port_uitoa dp hdp]

/-- `parseV1IPAddress` always rejects the UNSPEC protocol. -/
theorem parseV1IPAddress_unspec (s : List Nat) :
    parseV1IPAddress UNSPEC s = .error .invalidAddress := rfl

/-- Writing a v1 header whose transport is neither TCPv4 nor TCPv6 (in
particular the UDP transports) emits the UNKNOWN protocol token, and
re-reading that line fails with `ErrInvalidAddress`: the round trip is lost. -/
theorem read_write_v1_unknown (h : Header)
    (hn4 : h.TransportProtocol ≠ TCPv4) (hn6 : h.TransportProtocol ≠ TCPv6)
    (hl2 : (0x0A : Nat) ∉ ipString h.SrcAddr) (hs2 : (0x20 : Nat) ∉ ipString h.SrcAddr)
    (hl3 : (0x0A : Nat) ∉ ipString h.DstAddr) (hs3 : (0x20 : Nat) ∉ ipString h.DstAddr) :
    Read (mkReader (writeVersion1 h)) = (.error .invalidAddress, mkReader []) := by
  have hw : writeVersion1 h =
      SIGV1 ++ [v1Sep] ++ UNKNOWNtok ++ [v1Sep] ++ ipString h.SrcAddr ++ [v1Sep] ++
        ipString h.DstAddr ++ [v1Sep] ++ uitoa h.SrcPort ++ [v1Sep] ++ uitoa h.DstPort ++
        CRLF := by
    unfold writeVersion1
    rw [if_neg hn4, if_neg hn6]
  rw [hw]
  rw [read_v1_dispatch _ (by
    rw [show SIGV1 ++ [v1Sep] ++ UNKNOWNtok ++ [v1Sep] ++ ipString h.SrcAddr ++ [v1Sep] ++
        ipString h.DstAddr ++ [v1Sep] ++ uitoa h.SrcPort ++ [v1Sep] ++ uitoa h.DstPort ++
        CRLF =
      SIGV1 ++ ([v1Sep] ++ UNKNOWNtok ++ [v1Sep] ++ ipString h.SrcAddr ++ [v1Sep] ++
        ipString h.DstAddr ++ [v1Sep] ++ uitoa h.SrcPort ++ [v1Sep] ++ uitoa h.DstPort ++
        CRLF) from by
      simp [List.append_assoc]]
    exact List.take_left' (by decide))]
  rw [parseVersion1_reduce UNKNOWNtok (ipString h.SrcAddr) (ipString h.DstAddr)
    (uitoa h.SrcPort) (uitoa h.DstPort)
    (by decide) (by decide) hl2 hs2 hl3 hs3
    ((uitoa_no_lf_sp h.SrcPort).1) ((uitoa_no_lf_sp h.SrcPort).2)
    ((uitoa_no_lf_sp h.DstPort).1) ((uitoa_no_lf_sp h.DstPort).2)]
  rw [if_neg (by decide), if_neg (by decide)]
  unfold v1Assemble
  rw [parseV1IPAddress_unspec]

/-- Parsing an unpadded v2 PROXY header with a symbolic address block: the
header fields are the block's slices, and the stream is fully consumed. -/
theorem read_v2_proxy (fam : Nat) (block : List Nat)
    (hfam : isSupportedTransportProtocol fam = true)
    (hblock : block.length = if apIsIPv4 fam then 12 else 36) :
    Read (mkReader (SIGV2 ++ PROXY :: fam :: (be16 block.length ++ block))) =
      (.ok (if apIsIPv4 fam then
        { Version := 2, Command := PROXY, TransportProtocol := fam,
          SrcAddr := block.take 4, DstAddr := (block.drop 4).take 4,
          SrcPort := beVal ((block.drop 8).headD 0) ((block.drop 9).headD 0),
          DstPort := beVal ((block.drop 10).headD 0) ((block.drop 11).headD 0) }
      else
        { Version := 2, Command := PROXY, TransportProtocol := fam,
          SrcAddr := block.take 16, DstAddr := (block.drop 16).take 16,
          SrcPort := beVal ((block.drop 32).headD 0) ((block.drop 33).headD 0),
          DstPort := beVal ((block.drop 34).headD 0) ((block.drop 35).headD 0) }),
       mkReader []) := by
  rcases supported_transport_cases fam hfam with h | h | h | h <;> subst h
  · have hblock : block.length = 12 := hblock.trans (by decide)
    have htakeb : List.take 12 block = block := by rw [← hblock, List.take_length]
    have hdropb2 : List.drop 12 block = [] := by rw [← hblock, List.drop_length]
    have hbv0 : beVal 0 12 = 12 := by decide
    unfold Read Reader.peek parseVersion2
    simp [Reader.discard, Reader.readByte, Reader.readN, Reader.peek, SIGV1, SIGV2, be16,
      isSupportedCommand, pvcIsLocal, isSupportedTransportProtocol, LOCAL, PROXY, mkReader,
      hbv0, validateLeastAddressLen, apIsIPv4, apIsIPv6,
      TCPv4, UDPv4, TCPv6, UDPv6, v4AddrLen, v6AddrLen,
      (show (33:Nat) &&& 240 = 32 from by decide), (show (33:Nat) &&& 15 = 1 from by decide),
      (show (17:Nat) &&& 240 = 16 from by decide),
      htakeb, hdropb2, hblock]
  · have hblock : block.length = 12 := hblock.trans (by decide)
    have htakeb : List.take 12 block = block := by rw [← hblock, List.take_length]
    have hdropb2 : List.drop 12 block = [] := by rw [← hblock, List.drop_length]
    have hbv0 : beVal 0 12 = 12 := by decide
    unfold Read Reader.peek parseVersion2
    simp [Reader.discard, Reader.readByte, Reader.readN, Reader.peek, SIGV1, SIGV2, be16,
      isSupportedCommand, pvcIsLocal, isSupportedTransportProtocol, LOCAL, PROXY, mkReader,
      hbv0, validateLeastAddressLen, apIsIPv4, apIsIPv6,
      TCPv4, UDPv4, TCPv6, UDPv6, v4AddrLen, v6AddrLen,
      (show (33:Nat) &&& 240 = 32 from by decide), (show (33:Nat) &&& 15 = 1 from by decide),
      (show (18:Nat) &&& 240 = 16 from by decide),
      htakeb, hdropb2, hblock]
  · have hblock : block.length = 36 := hblock.trans (by decide)
    have htakeb : List.take 36 block = block := by rw [← hblock, List.take_length]
    have hdropb2 : List.drop 36 block = [] := by rw [← hblock, List.drop_length]
    have hbv0 : beVal 0 36 = 36 := by decide
    unfold Read Reader.peek parseVersion2
    simp [Reader.discard, Reader.readByte, Reader.readN, Reader.peek, SIGV1, SIGV2, be16,
      isSupportedCommand, pvcIsLocal, isSupportedTransportProtocol, LOCAL, PROXY, mkReader,
      hbv0, validateLeastAddressLen, apIsIPv4, apIsIPv6,
      TCPv4, UDPv4, TCPv6, UDPv6, v4AddrLen, v6AddrLen,
      (show (33:Nat) &&& 240 = 32 from by decide), (show (33:Nat) &&& 15 = 1 from by decide),
      htakeb, hdropb2, hblock]
  · have hblock : block.length = 36 := hblock.trans (by decide)
    have htakeb : List.take 36 block = block := by rw [← hblock, List.take_length]
    have hdropb2 : List.drop 36 block = [] := by rw [← hblock, List.drop_length]
    have hbv0 : beVal 0 36 = 36 := by decide
    unfold Read Reader.peek parseVersion2
    simp [Reader.discard, Reader.readByte, Reader.readN, Reader.peek, SIGV1, SIGV2, be16,
      isSupportedCommand, pvcIsLocal, isSupportedTransportProtocol, LOCAL, PROXY, mkReader,
      hbv0, validateLeastAddressLen, apIsIPv4, apIsIPv6,
      TCPv4, UDPv4, TCPv6, UDPv6, v4AddrLen, v6AddrLen,
      (show (33:Nat) &&& 240 = 32 from by decide), (show (33:Nat) &&& 15 = 1 from by decide),
      (show (34:Nat) &&& 240 = 32 from by decide),
      htakeb, hdropb2, hblock]

theorem to4_len4 (ip : List Nat) (h : ip.length = 4) : to4 ip = ip := by
  unfold to4
  rw [if_pos h]

theorem to16_len16 (ip : List Nat) (h : ip.length = 16) : to16 ip = ip := by
  rcases ip with _ | ⟨a, t⟩
  · simp at h
  rcases t with _ | ⟨b, t⟩
  · simp at h
  rcases t with _ | ⟨c, t⟩
  · simp at h
  rcases t with _ | ⟨d, t⟩
  · simp at h
  rcases t with _ | ⟨e, t⟩
  · simp at h
  unfold to16
  rw [if_pos h]

/-- Writing and re-reading a v2 PROXY header over an IPv4 transport with
4-byte addresses reproduces the header exactly. -/
theorem read_write_v2_v4 (fam : Nat) (src dst : List Nat) (sp dp : Nat)
    (hfam : fam = TCPv4 ∨ fam = UDPv4)
    (hs : src.length = 4) (hd : dst.length = 4)
    (hsp : sp ≤ 65535) (hdp : dp ≤ 65535) :
    Read (mkReader (writeVersion2
        { Version := 2, SrcAddr := src, DstAddr := dst, SrcPort := sp, DstPort := dp,
          Command := PROXY, TransportProtocol := fam })) =
      (.ok { Version := 2, SrcAddr := src, DstAddr := dst, SrcPort := sp, DstPort := dp,
             Command := PROXY, TransportProtocol := fam }, mkReader []) := by
  have hblock : (src ++ (dst ++ (be16 sp ++ be16 dp))).length = 12 := by
    simp [be16, hs, hd]
  have hw : writeVersion2
      { Version := 2, SrcAddr := src, DstAddr := dst, SrcPort := sp, DstPort := dp,
        Command := PROXY, TransportProtocol := fam } =
      SIGV2 ++ PROXY :: fam :: (be16 (src ++ (dst ++ (be16 sp ++ be16 dp))).length ++
        (src ++ (dst ++ (be16 sp ++ be16 dp)))) := by
    unfold writeVersion2
    rw [if_neg (by show ¬ pvcIsLocal PROXY = true; decide)]
    rw [if_pos (by
      show apIsIPv4 fam = true
      rcases hfam with h | h <;> subst h <;> decide)]
    rw [to4_len4 src hs, to4_len4 dst hd, hblock]
    simp [v4AddrLen]
  rw [hw]
  rw [read_v2_proxy fam (src ++ (dst ++ (be16 sp ++ be16 dp)))
    (by rcases hfam with h | h <;> subst h <;> decide)
    (by
      rw [hblock]
      rw [if_pos (by rcases hfam with h | h <;> subst h <;> decide)])]
  have h4a : apIsIPv4 fam = true := by rcases hfam with h | h <;> subst h <;> decide
  rw [if_pos h4a]
  have ht4 : (src ++ (dst ++ (be16 sp ++ be16 dp))).take 4 = src := List.take_left' hs
  have hd4 : (src ++ (dst ++ (be16 sp ++ be16 dp))).drop 4 = dst ++ (be16 sp ++ be16 dp) :=
    List.drop_left' hs
  have hd8 : (src ++ (dst ++ (be16 sp ++ be16 dp))).drop 8 = be16 sp ++ be16 dp := by
    rw [show (8 : Nat) = 4 + 4 from rfl, ← List.drop_drop, hd4, List.drop_left' hd]
  have hd9 : (src ++ (dst ++ (be16 sp ++ be16 dp))).drop 9 = sp % 256 :: be16 dp := by
    rw [show (9 : Nat) = 8 + 1 from rfl, ← List.drop_drop, hd8]
    rfl
  have hd10 : (src ++ (dst ++ (be16 sp ++ be16 dp))).drop 10 = be16 dp := by
    rw [show (10 : Nat) = 8 + 2 from rfl, ← List.drop_drop, hd8]
    rfl
  have hd11 : (src ++ (dst ++ (be16 sp ++ be16 dp))).drop 11 = [dp % 256] := by
    rw [show (11 : Nat) = 10 + 1 from rfl, ← List.drop_drop, hd10]
    rfl
  rw [ht4, hd4, List.take_left' hd, hd8, hd9, hd10, hd11]
  simp only [be16, List.cons_append, List.nil_append, List.headD_cons]
  rw [beVal_be16 sp hsp, beVal_be16 dp hdp]

/-- Writing and re-reading a v2 PROXY header over an IPv6 transport with
16-byte addresses reproduces the header exactly. -/
theorem read_write_v2_v6 (fam : Nat) (src dst : List Nat) (sp dp : Nat)
    (hfam : fam = TCPv6 ∨ fam = UDPv6)
    (hs : src.length = 16) (hd : dst.length = 16)
    (hsp : sp ≤ 65535) (hdp : dp ≤ 65535) :
    Read (mkReader (writeVersion2
        { Version := 2, SrcAddr := src, DstAddr := dst, SrcPort := sp, DstPort := dp,
          Command := PROXY, TransportProtocol := fam })) =
      (.ok { Version := 2, SrcAddr := src, DstAddr := dst, SrcPort := sp, DstPort := dp,
             Command := PROXY, TransportProtocol := fam }, mkReader []) := by
  have hblock : (src ++ (dst ++ (be16 sp ++ be16 dp))).length = 36 := by
    simp [be16, hs, hd]
  have hw : writeVersion2
      { Version := 2, SrcAddr := src, DstAddr := dst, SrcPort := sp, DstPort := dp,
        Command := PROXY, TransportProtocol := fam } =
      SIGV2 ++ PROXY :: fam :: (be16 (src ++ (dst ++ (be16 sp ++ be16 dp))).length ++
        (src ++ (dst ++ (be16 sp ++ be16 dp)))) := by
    unfold writeVersion2
    rw [if_neg (by show ¬ pvcIsLocal PROXY = true; decide)]
    rw [if_neg (by
      show ¬ apIsIPv4 fam = true
      rcases hfam with h | h <;> subst h <;> decide)]
    rw [if_pos (by
      show apIsIPv6 fam = true
      rcases hfam with h | h <;> subst h <;> decide)]
    rw [to16_len16 src hs, to16_len16 dst hd, hblock]
    simp [v6AddrLen]
  rw [hw]
  rw [read_v2_proxy fam (src ++ (dst ++ (be16 sp ++ be16 dp)))
    (by rcases hfam with h | h <;> subst h <;> decide)
    (by
      rw [hblock]
      rw [if_neg (by rcases hfam with h | h <;> subst h <;> decide)])]
  have h6a : ¬ apIsIPv4 fam = true := by rcases hfam with h | h <;> subst h <;> decide
  rw [if_neg h6a]
  have ht16 : (src ++ (dst ++ (be16 sp ++ be16 dp))).take 16 = src := List.take_left' hs
  have hd16 : (src ++ (dst ++ (be16 sp ++ be16 dp))).drop 16 = dst ++ (be16 sp ++ be16 dp) :=
    List.drop_left' hs
  have hd32 : (src ++ (dst ++ (be16 sp ++ be16 dp))).drop 32 = be16 sp ++ be16 dp := by
    rw [show (32 : Nat) = 16 + 16 from rfl, ← List.drop_drop, hd16, List.drop_left' hd]
  have hd33 : (src ++ (dst ++ (be16 sp ++ be16 dp))).drop 33 = sp % 256 :: be16 dp := by
    rw [show (33 : Nat) = 32 + 1 from rfl, ← List.drop_drop, hd32]
    rfl
  have hd34 : (src ++ (dst ++ (be16 sp ++ be16 dp))).drop 34 = be16 dp := by
    rw [show (34 : Nat) = 32 + 2 from rfl, ← List.drop_drop, hd32]
    rfl
  have hd35 : (src ++ (dst ++ (be16 sp ++ be16 dp))).drop 35 = [dp % 256] := by
    rw [show (35 : Nat) = 34 + 1 from rfl, ← List.drop_drop, hd34]
    rfl
  rw [ht16, hd16, List.take_left' hd, hd32, hd33, hd34, hd35]
  simp only [be16, List.cons_append, List.nil_append, List.headD_cons]
  rw [beVal_be16 sp hsp, beVal_be16 dp hdp]

/-- Writing and re-reading the canonical v2 LOCAL header reproduces it
exactly: the encoding is signature plus command byte only. -/
theorem read_write_v2_local :
    Read (mkReader (writeVersion2 { Version := 2, Command := LOCAL })) =
      (.ok { Version := 2, Command := LOCAL }, mkReader []) := rfl

/-! ## Header-equality helpers -/

theorem ipEqual_refl (x : List Nat) : ipEqual x x = true := by
  unfold ipEqual
  rw [if_pos rfl]
  simp

theorem ipEqual_v4InV6 (a b c d : Nat) : ipEqual [a, b, c, d] (v4InV6 a b c d) = true := by
  unfold ipEqual
  rw [if_neg (by simp [v4InV6]), if_pos (by simp [v4InV6]), to4_v4InV6]
  simp

theorem exists_four (S : List Nat) (h : S.length = 4) : ∃ a b c d, S = [a, b, c, d] := by
  rcases S with _ | ⟨a, S⟩
  · simp at h
  rcases S with _ | ⟨b, S⟩
  · simp at h
  rcases S with _ | ⟨c, S⟩
  · simp at h
  rcases S with _ | ⟨d, S⟩
  · simp at h
  rcases S with _ | ⟨e, S⟩
  · exact ⟨a, b, c, d, rfl⟩
  · simp at h

/-- C1 (amended): writing a valid `Header` with `WriteTo` and re-parsing with
`Read` round-trips as follows.  For version 2 the header is reproduced
exactly: the LOCAL header (empty addresses, UNSPEC transport), and PROXY
headers over all four transports with family-sized addresses and 16-bit
ports.  For version 1 over TCPv4/TCPv6, transport, addresses (up to
`net.IP.Equal`) and ports survive but `Command` always parses back as its
zero value, so only headers whose command is unset round-trip fully.  A
version 1 header over UDPv4/UDPv6 is written as an UNKNOWN line whose
re-parse fails with `ErrInvalidAddress`: the round trip of the original
claim fails for those headers. -/
theorem c1_write_read_roundtrip :
    (∀ h : Header, h.Version = 2 → h.Command = LOCAL → h.TransportProtocol = UNSPEC →
      h.SrcAddr = [] → h.DstAddr = [] → h.SrcPort = 0 → h.DstPort = 0 →
      writeTo h = .ok (writeVersion2 h) ∧
      Read (mkReader (writeVersion2 h)) = (.ok h, mkReader [])) ∧
    (∀ h : Header, h.Version = 2 → h.Command = PROXY →
      (h.TransportProtocol = TCPv4 ∨ h.TransportProtocol = UDPv4) →
      h.SrcAddr.length = 4 → h.DstAddr.length = 4 →
      h.SrcPort ≤ 65535 → h.DstPort ≤ 65535 →
      writeTo h = .ok (writeVersion2 h) ∧
      Read (mkReader (writeVersion2 h)) = (.ok h, mkReader [])) ∧
    (∀ h : Header, h.Version = 2 → h.Command = PROXY →
      (h.TransportProtocol = TCPv6 ∨ h.TransportProtocol = UDPv6) →
      h.SrcAddr.length = 16 → h.DstAddr.length = 16 →
      h.SrcPort ≤ 65535 → h.DstPort ≤ 65535 →
      writeTo h = .ok (writeVersion2 h) ∧
      Read (mkReader (writeVersion2 h)) = (.ok h, mkReader [])) ∧
    (∀ h : Header, h.Version = 1 → h.TransportProtocol = TCPv4 →
      h.SrcAddr.length = 4 → h.DstAddr.length = 4 →
      (∀ x ∈ h.SrcAddr, x ≤ 255) → (∀ x ∈ h.DstAddr, x ≤ 255) →
      h.SrcPort ≤ 65535 → h.DstPort ≤ 65535 →
      writeTo h = .ok (writeVersion1 h) ∧
      ∃ h2 : Header, Read (mkReader (writeVersion1 h)) = (.ok h2, mkReader []) ∧
        headerMatch { h with Command := 0 } h2) ∧
    (∀ h : Header, h.Version = 1 → h.TransportProtocol = TCPv6 →
      h.SrcAddr.length = 16 → h.DstAddr.length = 16 →
      to4 h.SrcAddr = [] → to4 h.DstAddr = [] →
      (∀ x ∈ h.SrcAddr, x ≤ 255) → (∀ x ∈ h.DstAddr, x ≤ 255) →
      h.SrcPort ≤ 65535 → h.DstPort ≤ 65535 →
      writeTo h = .ok (writeVersion1 h) ∧
      ∃ h2 : Header, Read (mkReader (writeVersion1 h)) = (.ok h2, mkReader []) ∧
        headerMatch { h with Command := 0 } h2) ∧
    (∀ h : Header, h.Version = 1 →
      (h.TransportProtocol = UDPv4 ∨ h.TransportProtocol = UDPv6) →
      (0x0A : Nat) ∉ ipString h.SrcAddr → (0x20 : Nat) ∉ ipString h.SrcAddr →
      (0x0A : Nat) ∉ ipString h.DstAddr → (0x20 : Nat) ∉ ipString h.DstAddr →
      writeTo h = .ok (writeVersion1 h) ∧
      Read (mkReader (writeVersion1 h)) = (.error .invalidAddress, mkReader [])) := by
  refine ⟨?_, ?_, ?_, ?_, ?_, ?_⟩
  · -- v2 LOCAL
    intro h hV hC hT hS hD hsp hdp
    obtain ⟨V, S, D, SP, DP, C, T⟩ := h
    have hV' : V = 2 := hV
    have hC' : C = LOCAL := hC
    have hT' : T = UNSPEC := hT
    have hS' : S = [] := hS
    have hD' : D = [] := hD
    have hsp' : SP = 0 := hsp
    have hdp' : DP = 0 := hdp
    subst hV' hC' hT' hS' hD' hsp' hdp'
    exact ⟨rfl, read_write_v2_local⟩
  · -- v2 PROXY, IPv4 transports
    intro h hV hC hT hS hD hsp hdp
    obtain ⟨V, S, D, SP, DP, C, T⟩ := h
    have hV' : V = 2 := hV
    have hC' : C = PROXY := hC
    have hT' : T = TCPv4 ∨ T = UDPv4 := hT
    have hS' : S.length = 4 := hS
    have hD' : D.length = 4 := hD
    have hsp' : SP ≤ 65535 := hsp
    have hdp' : DP ≤ 65535 := hdp
    subst hV' hC'
    exact ⟨by unfold writeTo; rw [if_neg (by show ¬ (2 : Nat) = 1; decide), if_pos rfl],
      read_write_v2_v4 T S D SP DP hT' hS' hD' hsp' hdp'⟩
  · -- v2 PROXY, IPv6 transports
    intro h hV hC hT hS hD hsp hdp
    obtain ⟨V, S, D, SP, DP, C, T⟩ := h
    have hV' : V = 2 := hV
    have hC' : C = PROXY := hC
    have hT' : T = TCPv6 ∨ T = UDPv6 := hT
    have hS' : S.length = 16 := hS
    have hD' : D.length = 16 := hD
    have hsp' : SP ≤ 65535 := hsp
    have hdp' : DP ≤ 65535 := hdp
    subst hV' hC'
    exact ⟨by unfold writeTo; rw [if_neg (by show ¬ (2 : Nat) = 1; decide), if_pos rfl],
      read_write_v2_v6 T S D SP DP hT' hS' hD' hsp' hdp'⟩
  · -- v1 TCPv4
    intro h hV hT hS hD hSb hDb hsp hdp
    obtain ⟨V, S, D, SP, DP, C, T⟩ := h
    have hV' : V = 1 := hV
    have hT' : T = TCPv4 := hT
    have hS' : S.length = 4 := hS
    have hD' : D.length = 4 := hD
    have hSb' : ∀ x ∈ S, x ≤ 255 := hSb
    have hDb' : ∀ x ∈ D, x ≤ 255 := hDb
    have hsp' : SP ≤ 65535 := hsp
    have hdp' : DP ≤ 65535 := hdp
    subst hV' hT'
    obtain ⟨a, b, c, d, hSeq⟩ := exists_four S hS'
    obtain ⟨e, f, g, i, hDeq⟩ := exists_four D hD'
    subst hSeq hDeq
    refine ⟨by unfold writeTo; rw [if_pos rfl], ?_⟩
    refine ⟨_, read_write_v1_tcp4 a b c d e f g i SP DP C
      (hSb' a (by simp)) (hSb' b (by simp)) (hSb' c (by simp)) (hSb' d (by simp))
      (hDb' e (by simp)) (hDb' f (by simp)) (hDb' g (by simp)) (hDb' i (by simp))
      hsp' hdp', ?_⟩
    exact ⟨rfl, rfl, rfl, ipEqual_v4InV6 a b c d, ipEqual_v4InV6 e f g i, rfl, rfl⟩
  · -- v1 TCPv6
    intro h hV hT hS hD hS4 hD4 hSb hDb hsp hdp
    obtain ⟨V, S, D, SP, DP, C, T⟩ := h
    have hV' : V = 1 := hV
    have hT' : T = TCPv6 := hT
    have hS' : S.length = 16 := hS
    have hD' : D.length = 16 := hD
    have hS4' : to4 S = [] := hS4
    have hD4' : to4 D = [] := hD4
    have hSb' : ∀ x ∈ S, x ≤ 255 := hSb
    have hDb' : ∀ x ∈ D, x ≤ 255 := hDb
    have hsp' : SP ≤ 65535 := hsp
    have hdp' : DP ≤ 65535 := hdp
    subst hV' hT'
    refine ⟨by unfold writeTo; rw [if_pos rfl], ?_⟩
    refine ⟨_, read_write_v1_tcp6 S D SP DP C hS' hS4' hSb' hD' hD4' hDb' hsp' hdp', ?_⟩
    exact ⟨rfl, rfl, rfl, ipEqual_refl S, ipEqual_refl D, rfl, rfl⟩
  · -- v1 UDP transports: the round trip is lost
    intro h hV hT hl2 hs2 hl3 hs3
    refine ⟨?_, ?_⟩
    · unfold writeTo
      rw [if_pos hV]
    · refine read_write_v1_unknown h ?_ ?_ hl2 hs2 hl3 hs3
      · rcases hT with ht | ht <;> rw [ht] <;> decide
      · rcases hT with ht | ht <;> rw [ht] <;> decide

/-- C1 witness: the round-trip theorem instantiated at concrete headers of
every family: the v2 LOCAL header, v2 PROXY over TCPv4 and UDPv6, v1 over
TCPv4 and TCPv6, and the v1 UDPv4 header whose round trip fails. -/
theorem c1_write_read_roundtrip_witness :
    (writeTo c1LocalHdr = .ok (writeVersion2 c1LocalHdr) ∧
      Read (mkReader (writeVersion2 c1LocalHdr)) = (.ok c1LocalHdr, mkReader [])) ∧
    (writeTo c1V2Hdr = .ok (writeVersion2 c1V2Hdr) ∧
      Read (mkReader (writeVersion2 c1V2Hdr)) = (.ok c1V2Hdr, mkReader [])) ∧
    (writeTo c1V6Hdr = .ok (writeVersion2 c1V6Hdr) ∧
      Read (mkReader (writeVersion2 c1V6Hdr)) = (.ok c1V6Hdr, mkReader [])) ∧
    (writeTo c1V1Hdr = .ok (writeVersion1 c1V1Hdr) ∧
      ∃ h2 : Header, Read (mkReader (writeVersion1 c1V1Hdr)) = (.ok h2, mkReader []) ∧
        headerMatch { c1V1Hdr with Command := 0 } h2) ∧
    (writeTo c1V1V6Hdr = .ok (writeVersion1 c1V1V6Hdr) ∧
      ∃ h2 : Header, Read (mkReader (writeVersion1 c1V1V6Hdr)) = (.ok h2, mkReader []) ∧
        headerMatch { c1V1V6Hdr with Command := 0 } h2) ∧
    (writeTo c1UdpHdr = .ok (writeVersion1 c1UdpHdr) ∧
      Read (mkReader (writeVersion1 c1UdpHdr)) = (.error .invalidAddress, mkReader [])) :=
  ⟨c1_write_read_roundtrip.1 c1LocalHdr rfl rfl rfl rfl rfl rfl rfl,
   c1_write_read_roundtrip.2.1 c1V2Hdr rfl rfl (Or.inl rfl) (by decide) (by decide)
     (by decide) (by decide),
   c1_write_read_roundtrip.2.2.1 c1V6Hdr rfl rfl (Or.inr rfl) (by decide) (by decide)
     (by decide) (by decide),
   c1_write_read_roundtrip.2.2.2.1 c1V1Hdr rfl rfl (by decide) (by decide) (by decide)
     (by decide) (by decide) (by decide),
   c1_write_read_roundtrip.2.2.2.2.1 c1V1V6Hdr rfl rfl (by decide) (by decide) (by decide)
     (by decide) (by decide) (by decide) (by decide) (by decide),
   c1_write_read_roundtrip.2.2.2.2.2 c1UdpHdr rfl (Or.inl rfl)
     (by rw [show c1UdpHdr.SrcAddr = [127, 0, 0, 1] from rfl, ipString_v4]
         exact (dotted_no_lf_sp 127 0 0 1).1)
     (by rw [show c1UdpHdr.SrcAddr = [127, 0, 0, 1] from rfl, ipString_v4]
         exact (dotted_no_lf_sp 127 0 0 1).2)
     (by rw [show c1UdpHdr.DstAddr = [10, 0, 0, 1] from rfl, ipString_v4]
         exact (dotted_no_lf_sp 10 0 0 1).1)
     (by rw [show c1UdpHdr.DstAddr = [10, 0, 0, 1] from rfl, ipString_v4]
         exact (dotted_no_lf_sp 10 0 0 1).2)⟩

/-- C1 counterexample: two valid version 1 headers that do not round-trip.
The UDPv4 header is written as an UNKNOWN line that re-parses to
`ErrInvalidAddress` rather than any header; and writing a TCPv4 header whose
command byte is PROXY parses back with command 0, not the written command. -/
theorem c1_roundtrip_counterexample :
    (writeTo c1UdpHdr = .ok (writeVersion1 c1UdpHdr) ∧
      Read (mkReader (writeVersion1 c1UdpHdr)) = (.error .invalidAddress, mkReader [])) ∧
    (writeTo c1ProxyHdr = .ok (writeVersion1 c1ProxyHdr) ∧
      ∀ h2 : Header, Read (mkReader (writeVersion1 c1ProxyHdr)) = (.ok h2, mkReader []) →
        h2.Command ≠ c1ProxyHdr.Command) := by
  constructor
  · refine ⟨rfl, ?_⟩
    refine read_write_v1_unknown c1UdpHdr (by decide) (by decide) ?_ ?_ ?_ ?_
    · rw [show c1UdpHdr.SrcAddr = [127, 0, 0, 1] from rfl, ipString_v4]
      exact (dotted_no_lf_sp 127 0 0 1).1
    · rw [show c1UdpHdr.SrcAddr = [127, 0, 0, 1] from rfl, ipString_v4]
      exact (dotted_no_lf_sp 127 0 0 1).2
    · rw [show c1UdpHdr.DstAddr = [10, 0, 0, 1] from rfl, ipString_v4]
      exact (dotted_no_lf_sp 10 0 0 1).1
    · rw [show c1UdpHdr.DstAddr = [10, 0, 0, 1] from rfl, ipString_v4]
      exact (dotted_no_lf_sp 10 0 0 1).2
  · refine ⟨rfl, ?_⟩
    intro h2 hh2
    have hread := read_write_v1_tcp4 127 0 0 1 10 0 0 1 8080 80 PROXY
      (by decide) (by decide) (by decide) (by decide) (by decide) (by decide)
      (by decide) (by decide) (by decide) (by decide)
    rw [show c1ProxyHdr =
      { Version := 1, SrcAddr := [127, 0, 0, 1], DstAddr := [10, 0, 0, 1],
        SrcPort := 8080, DstPort := 80, Command := PROXY,
        TransportProtocol := TCPv4 } from rfl] at hh2 ⊢
    rw [hread] at hh2
    simp only [Prod.mk.injEq, Except.ok.injEq] at hh2
    rw [← hh2.1]
    decide
